import Mathlib

/-!
Verification of the i915 atomic-modeset / DSB command-buffer excerpt.

This file gives a shallow embedding, in Lean 4, of the parts of the
driver relevant to the checked claims:

* the DSB (Display State Buffer) command-buffer batcher
  (`intel_dsb_emit`, `intel_dsb_reg_write`, `intel_dsb_align_tail`,
  `dsb_scanline_to_hw`, ...) from the DSB source file;
* the flip/vblank synchronizer (`intel_flip_flip`, `vbl_count_after_eq`,
  `intel_vbl_check`, `intel_atomic_wedged`,
  `intel_atomic_process_flips_work`) from the atomic-modeset source file;
* the atomic transaction engine (`crtc_compute_dirty`,
  `plane_compute_dirty`, `check_crtc`, `intel_atomic_check`,
  `intel_atomic_commit`, `restore_state`) from the atomic-modeset
  source file;
* the scaler allocation head of `intel_atomic_setup_scalers`.

Machine integers are modelled as `Nat` with explicit reductions
modulo `2^32` (or `2^24`) exactly where the C code performs 32-bit
(24-bit) wraparound arithmetic.  Fallible operations return an `Int`
error code (0 = success, negative = `-Exxx`), mirroring the C return
conventions.  Hardware side effects are modelled as explicit effect
traces.
-/

namespace I915

/-- Error numbers used by the driver, as positive constants; the C code
returns their negations. -/
def ENOENT : Int := 2
def EAGAIN : Int := 11
def ENOMEM : Int := 12
def EINVAL : Int := 22
def ENOSPC : Int := 28
def ERANGE : Int := 34

/-- `ALIGN(x, a)` from the kernel: round `x` up to a multiple of `a`. -/
def kalign (x a : Nat) : Nat := ((x + a - 1) / a) * a

/-- u32 subtraction `a - b` (both arguments reduced mod `2^32`). -/
def usub32 (a b : Nat) : Nat := (a % 2 ^ 32 + (2 ^ 32 - b % 2 ^ 32)) % 2 ^ 32

/-! ## DSB command-buffer batcher

Shallow embedding of `struct intel_dsb` and its emit path.  The buffer
(`dsb_buf` in C, a u32 array accessed through
`intel_dsb_buffer_read`/`intel_dsb_buffer_write`) is modelled as a
total function from dword index to dword value; the C code only ever
accesses indices below `size` when the room assertion holds. -/

def CACHELINE_BYTES : Nat := 64

def DSB_OPCODE_SHIFT : Nat := 24
def DSB_OPCODE_NOOP : Nat := 0x0
def DSB_OPCODE_MMIO_WRITE : Nat := 0x1
def DSB_BYTE_EN : Nat := 0xf
def DSB_BYTE_EN_SHIFT : Nat := 20
def DSB_REG_VALUE_MASK : Nat := 0xfffff
/-- `~DSB_REG_VALUE_MASK` as a u32. -/
def DSB_REG_VALUE_MASK_INV : Nat := 0xfff00000
def DSB_OPCODE_WAIT_USEC : Nat := 0x2
def DSB_OPCODE_WAIT_SCANLINE : Nat := 0x3
def DSB_OPCODE_WAIT_VBLANKS : Nat := 0x4
def DSB_OPCODE_INTERRUPT : Nat := 0x7
def DSB_OPCODE_INDEXED_WRITE : Nat := 0x9
def DSB_OPCODE_POLL : Nat := 0xA

/-- `struct intel_dsb`: command-buffer bookkeeping.  `size` is the
capacity in dwords, `free_pos` the first free dword, and
`ins_start_offset` the start dword of the last emitted instruction.
The backing dword array (`dsb_buf`) is modelled as a total function
from dword index to value; the C code never accesses it outside
`[0, size)` when the room assertion holds. -/
structure IntelDsb where
  size : Nat
  free_pos : Nat
  ins_start_offset : Nat
  buf : Nat → Nat

/-- `intel_dsb_buffer_read`. -/
def dsb_buffer_read (d : IntelDsb) (i : Nat) : Nat := d.buf i

/-- `intel_dsb_buffer_write`. -/
def dsb_buffer_write (d : IntelDsb) (i v : Nat) : IntelDsb :=
  { d with buf := fun j => if j = i then v else d.buf j }

/-- A freshly prepared DSB (`intel_dsb_prepare`): `free_pos` and
`ins_start_offset` start at zero; the buffer contents are arbitrary
(`i915_gem_object_create_internal` does *not* return zeroed memory). -/
def dsb_fresh (size : Nat) (buf0 : Nat → Nat) : IntelDsb :=
  { size := size, free_pos := 0, ins_start_offset := 0, buf := buf0 }

/-- `assert_dsb_has_room`: true iff an instruction (2 dwords) still fits.
The C comparison `free_pos > size - 2` is unsigned; for `size ≥ 2`
(always true for a real buffer) it coincides with this Nat version. -/
def assert_dsb_has_room (d : IntelDsb) : Bool :=
  !(d.free_pos > d.size - 2)

/-- `intel_dsb_emit`: append one 2-dword instruction, 8-byte aligned. -/
def intel_dsb_emit (d : IntelDsb) (ldw udw : Nat) : IntelDsb :=
  if !(assert_dsb_has_room d) then d
  else
    -- Every instruction should be 8 byte aligned.
    let d := { d with free_pos := kalign d.free_pos 2 }
    let d := { d with ins_start_offset := d.free_pos }
    let d := dsb_buffer_write d d.free_pos ldw
    let d := { d with free_pos := d.free_pos + 1 }
    let d := dsb_buffer_write d d.free_pos udw
    { d with free_pos := d.free_pos + 1 }

/-- `intel_dsb_prev_ins_is_write`: does the previous instruction have
the given opcode word (with the register field masked out) and target
register? -/
def intel_dsb_prev_ins_is_write (d : IntelDsb) (opcode reg : Nat) : Bool :=
  -- Nothing emitted yet?  The backing memory is not zeroed.
  if d.free_pos == 0 then false
  else
    let prev_opcode := dsb_buffer_read d (d.ins_start_offset + 1) &&& DSB_REG_VALUE_MASK_INV
    let prev_reg := dsb_buffer_read d (d.ins_start_offset + 1) &&& DSB_REG_VALUE_MASK
    prev_opcode == opcode && prev_reg == reg

/-- `intel_dsb_prev_ins_is_mmio_write`: only full byte-enables can be
converted to indexed writes. -/
def intel_dsb_prev_ins_is_mmio_write (d : IntelDsb) (reg : Nat) : Bool :=
  intel_dsb_prev_ins_is_write d
    (DSB_OPCODE_MMIO_WRITE <<< DSB_OPCODE_SHIFT |||
     DSB_BYTE_EN <<< DSB_BYTE_EN_SHIFT) reg

/-- `intel_dsb_prev_ins_is_indexed_write`. -/
def intel_dsb_prev_ins_is_indexed_write (d : IntelDsb) (reg : Nat) : Bool :=
  intel_dsb_prev_ins_is_write d (DSB_OPCODE_INDEXED_WRITE <<< DSB_OPCODE_SHIFT) reg

/-- `intel_dsb_reg_write`: emit a register write, merging consecutive
writes to the same register into an indexed write with a count. -/
def intel_dsb_reg_write (d : IntelDsb) (reg val : Nat) : IntelDsb :=
  if !(intel_dsb_prev_ins_is_mmio_write d reg) &&
     !(intel_dsb_prev_ins_is_indexed_write d reg) then
    intel_dsb_emit d val
      ((DSB_OPCODE_MMIO_WRITE <<< DSB_OPCODE_SHIFT) |||
       (DSB_BYTE_EN <<< DSB_BYTE_EN_SHIFT) ||| reg)
  else
    if !(assert_dsb_has_room d) then d
    else
      -- convert to indexed write?
      let d :=
        if intel_dsb_prev_ins_is_mmio_write d reg then
          let prev_val := dsb_buffer_read d (d.ins_start_offset + 0)
          let d := dsb_buffer_write d (d.ins_start_offset + 0) 1 -- count
          let d := dsb_buffer_write d (d.ins_start_offset + 1)
            ((DSB_OPCODE_INDEXED_WRITE <<< DSB_OPCODE_SHIFT) ||| reg)
          let d := dsb_buffer_write d (d.ins_start_offset + 2) prev_val
          { d with free_pos := d.free_pos + 1 }
        else d
      let d := dsb_buffer_write d d.free_pos val
      let d := { d with free_pos := d.free_pos + 1 }
      -- Update the count
      let old_val := dsb_buffer_read d d.ins_start_offset
      let d := dsb_buffer_write d d.ins_start_offset (old_val + 1)
      -- if number of data words is odd, then the last dword should be 0
      if d.free_pos &&& 0x1 != 0 then dsb_buffer_write d d.free_pos 0 else d

/-- `intel_dsb_buffer_memset(buf, pos, 0, bytes)`: zero `cnt` dwords
starting at `pos`. -/
def dsb_buffer_memset0 (d : IntelDsb) (pos cnt : Nat) : IntelDsb :=
  { d with buf := fun j => if pos ≤ j ∧ j < pos + cnt then 0 else d.buf j }

/-- `intel_dsb_align_tail`: pad the tail of the command buffer with
zeroes up to a full cacheline. -/
def intel_dsb_align_tail (d : IntelDsb) : IntelDsb :=
  let tail := d.free_pos * 4
  let aligned_tail := kalign tail CACHELINE_BYTES
  let d :=
    if aligned_tail > tail then
      dsb_buffer_memset0 d d.free_pos ((aligned_tail - tail) / 4)
    else d
  { d with free_pos := aligned_tail / 4 }

/-- The header word emitted for a direct MMIO write with full byte
enables (`DSB_OPCODE_MMIO_WRITE << DSB_OPCODE_SHIFT | DSB_BYTE_EN <<
DSB_BYTE_EN_SHIFT | reg`). -/
def dsb_mmio_hdr (reg : Nat) : Nat :=
  (DSB_OPCODE_MMIO_WRITE <<< DSB_OPCODE_SHIFT) |||
    (DSB_BYTE_EN <<< DSB_BYTE_EN_SHIFT) ||| reg

/-- The header word of an indexed write
(`DSB_OPCODE_INDEXED_WRITE << DSB_OPCODE_SHIFT | reg`). -/
def dsb_idx_hdr (reg : Nat) : Nat :=
  (DSB_OPCODE_INDEXED_WRITE <<< DSB_OPCODE_SHIFT) ||| reg

/-- Decode the instruction stream produced by the DSB emit path back
into (register, value) pairs in program order.  Each instruction is
two 8-byte-aligned header dwords; a direct MMIO write contributes one
pair; an indexed write with count `n` contributes `n` pairs, its data
dwords following the header with a trailing zero pad when `n` is odd
(the pad is skipped by the 2-dword realignment).  `endPos` is the
first dword past the stream and `fuel` bounds the recursion. -/
def dsb_decode_go (buf : Nat → Nat) (endPos : Nat) : Nat → Nat → List (Nat × Nat)
  | _, 0 => []
  | pos, fuel + 1 =>
    if pos + 2 > endPos then []
    else
      let ldw := buf pos
      let udw := buf (pos + 1)
      let opcode := udw >>> DSB_OPCODE_SHIFT
      if opcode == DSB_OPCODE_MMIO_WRITE then
        (udw &&& DSB_REG_VALUE_MASK, ldw) :: dsb_decode_go buf endPos (pos + 2) fuel
      else if opcode == DSB_OPCODE_INDEXED_WRITE then
        ((List.range ldw).map fun k => (udw &&& DSB_REG_VALUE_MASK, buf (pos + 2 + k)))
          ++ dsb_decode_go buf endPos (kalign (pos + 2 + ldw) 2) fuel
      else []

/-- Decode a DSB's whole instruction stream (up to the 2-dword-aligned
write cursor). -/
def dsb_decode (d : IntelDsb) : List (Nat × Nat) :=
  dsb_decode_go d.buf (kalign d.free_pos 2) 0 (kalign d.free_pos 2)

/-- Emit a sequence of values to one register via
`intel_dsb_reg_write`. -/
def dsb_emit_reg_writes (d : IntelDsb) (reg : Nat) (vals : List Nat) : IntelDsb :=
  vals.foldl (fun a v => intel_dsb_reg_write a reg v) d

/-- Shape of the DSB after one `intel_dsb_reg_write` on a fresh buffer:
a single direct MMIO write instruction. -/
def MmioShape (d : IntelDsb) (size reg v : Nat) : Prop :=
  d.size = size ∧ d.free_pos = 2 ∧ d.ins_start_offset = 0 ∧
  d.buf 0 = v ∧ d.buf 1 = dsb_mmio_hdr reg

/-- Shape of the DSB after two or more consecutive
`intel_dsb_reg_write`s to the same register: one indexed write whose
count dword holds the number of data dwords. -/
def IdxShape (d : IntelDsb) (size reg : Nat) (vals : List Nat) : Prop :=
  d.size = size ∧ d.free_pos = 2 + vals.length ∧ d.ins_start_offset = 0 ∧
  d.buf 0 = vals.length ∧ d.buf 1 = dsb_idx_hdr reg ∧
  ∀ j, j < vals.length → d.buf (2 + j) = vals.getD j 0

/-- The per-state alignment invariant of claim C9: the last (hence the
next) instruction start offset is 2-dword aligned, and when the write
cursor is odd (an indexed write with an odd number of data dwords) the
dword at the cursor is the zero pad. -/
def DsbAlignedInv (d : IntelDsb) : Prop :=
  d.ins_start_offset % 2 = 0 ∧ (d.free_pos % 2 = 1 → d.buf d.free_pos = 0)

/-- The emit operations of the DSB API: a raw 2-dword instruction
(`intel_dsb_emit`, used by noops, waits, polls, interrupts and masked
writes) or a mergeable register write (`intel_dsb_reg_write`). -/
inductive DsbOp where
  | emitOp (ldw udw : Nat)
  | regWriteOp (reg val : Nat)
  deriving Repr, DecidableEq

/-- Run one DSB emit operation. -/
def dsb_apply_op (d : IntelDsb) : DsbOp → IntelDsb
  | DsbOp.emitOp ldw udw => intel_dsb_emit d ldw udw
  | DsbOp.regWriteOp reg val => intel_dsb_reg_write d reg val

/-- Run a sequence of DSB emit operations. -/
def dsb_apply_ops (d : IntelDsb) (ops : List DsbOp) : IntelDsb :=
  ops.foldl dsb_apply_op d

/-! ## Scanline translation for DSB wait instructions -/

/-- The timing fields of `struct intel_crtc_state` consumed by the DSB
scanline translation. -/
structure DsbCrtcState where
  /-- `intel_mode_vtotal(&crtc_state->hw.adjusted_mode)` -/
  vtotal : Int
  /-- `crtc_state->vrr.vmax` -/
  vrr_vmax : Int
  /-- `crtc_state->vrr.enable` -/
  vrr_enable : Bool
  /-- `intel_crtc_scanline_offset(crtc_state)` -/
  scanline_offset : Int
  deriving Repr, DecidableEq

/-- One pipe's old/new crtc states in a transaction, plus the results of
the external helpers `intel_crtc_needs_modeset` (on the new state) and
`intel_crtc_vrr_disabling`. -/
structure PreCommitCtx where
  needs_modeset : Bool
  vrr_disabling : Bool
  old_crtc_state : DsbCrtcState
  new_crtc_state : DsbCrtcState
  deriving Repr, DecidableEq

/-- `pre_commit_is_vrr_active`. -/
def pre_commit_is_vrr_active (c : PreCommitCtx) : Bool :=
  -- VRR will be enabled afterwards, if necessary
  if c.needs_modeset then false
  -- VRR will have been disabled during intel_pre_plane_update()
  else c.old_crtc_state.vrr_enable && !c.vrr_disabling

/-- `pre_commit_crtc_state`: during fastsets the transcoder still runs
with the old timings. -/
def pre_commit_crtc_state (c : PreCommitCtx) : DsbCrtcState :=
  if c.needs_modeset then c.new_crtc_state else c.old_crtc_state

/-- The `vtotal` selected inside `dsb_scanline_to_hw`. -/
def dsb_vtotal (c : PreCommitCtx) : Int :=
  if pre_commit_is_vrr_active c then (pre_commit_crtc_state c).vrr_vmax
  else (pre_commit_crtc_state c).vtotal

/-- `dsb_scanline_to_hw`: translate a logical scanline into a
hardware-relative one.  C's `%` on `int` truncates toward zero
(`Int.tmod`). -/
def dsb_scanline_to_hw (c : PreCommitCtx) (scanline : Int) : Int :=
  Int.tmod (scanline + dsb_vtotal c - (pre_commit_crtc_state c).scanline_offset)
    (dsb_vtotal c)

/-- Modelled from the spec: the inverse of the hardware-relative
translation.  The spec describes the forward direction as "translated
from the logical scanline by subtracting a per-pipeline scanline
offset, modulo total lines" and postulates a round-trip; the inverse
adds the offset back, modulo the same total.  No inverse function
exists in the source. -/
def dsb_hw_to_scanline (c : PreCommitCtx) (hw : Int) : Int :=
  Int.tmod (hw + (pre_commit_crtc_state c).scanline_offset) (dsb_vtotal c)

/-! ## Frame counters and the flip/vblank synchronizer -/

/-- `vbl_count_after_eq_new` (G4X+ 32-bit frame counter):
`!((a - b) & 0x80000000)`. -/
def vbl_count_after_eq_new (a b : Nat) : Bool :=
  usub32 a b &&& 0x80000000 == 0

/-- `vbl_count_after_eq` (old-style 24-bit frame counter):
`!((a - b) & 0x800000)`. -/
def vbl_count_after_eq (a b : Nat) : Bool :=
  usub32 a b &&& 0x800000 == 0

/-- `intel_vbl_check`: has the pending flip's target vblank count been
reached?  `new_frmcount` models `intel_have_new_frmcount(dev)`. -/
def intel_vbl_check (new_frmcount : Bool) (pending_vbl_count vbl_count : Nat) : Bool :=
  if new_frmcount then vbl_count_after_eq_new vbl_count pending_vbl_count
  else vbl_count_after_eq vbl_count pending_vbl_count

/-- The fields of `struct intel_flip` relevant to arming, completion
and old-buffer bookkeeping.  Buffer objects are identified by numeric
ids; `none` models a NULL pointer. -/
structure IntelFlip where
  vbl_count : Nat
  old_fb_id : Nat
  old_bo : Option Nat
  old_cursor_bo : Option Nat
  vblank_ref : Bool
  has_cursor : Bool
  deriving Repr, DecidableEq

/-- `intel_flip_flip`, for an active pipe: the frame counter is sampled
(`vbl_count`), the double-buffer registers are armed (hardware effect,
not modelled), the flip's target vblank count is set to the sampled
count plus one (masked to 24 bits on the old counting style), and if a
previous flip is still pending and has not yet latched, the old-buffer
bookkeeping of the two descriptors is swapped.  Returns the updated
new flip, the updated pending flip, and whether the pending flip had
already flipped. -/
def intel_flip_flip (new_frmcount : Bool) (flip : IntelFlip)
    (pending_flip : Option IntelFlip) (vbl_count : Nat) :
    IntelFlip × Option IntelFlip × Bool :=
  -- This flip will happen on the next vblank
  let flip := { flip with vbl_count :=
    if new_frmcount then (vbl_count + 1) % 2 ^ 32
    else (vbl_count + 1) &&& 0xffffff }
  match pending_flip with
  | none => (flip, none, false)
  | some old_intel_flip =>
    let flipped := intel_vbl_check new_frmcount old_intel_flip.vbl_count vbl_count
    if !flipped then
      -- swap(intel_flip->old_fb_id, old_intel_flip->old_fb_id); etc.
      let f' : IntelFlip :=
        { flip with old_fb_id := old_intel_flip.old_fb_id,
                    old_bo := old_intel_flip.old_bo,
                    old_cursor_bo := old_intel_flip.old_cursor_bo }
      let o' : IntelFlip :=
        { old_intel_flip with old_fb_id := flip.old_fb_id,
                              old_bo := flip.old_bo,
                              old_cursor_bo := flip.old_cursor_bo }
      (f', some o', false)
    else (flip, some old_intel_flip, true)

/-- Buffer-release effects of `intel_flip_finish`. -/
inductive FlipEff where
  /-- `intel_unpin_fb_obj` + `drm_gem_object_unreference` of `old_bo` -/
  | unpinFb (bo : Nat)
  /-- `intel_crtc_cursor_bo_unref` of `old_cursor_bo` -/
  | unrefCursor (bo : Nat)
  deriving Repr, DecidableEq

/-- `intel_flip_finish`: release the old buffers held by a completed
flip descriptor. -/
def intel_flip_finish (f : IntelFlip) : List FlipEff :=
  (match f.old_bo with
   | some bo => [FlipEff.unpinFb bo]
   | none => []) ++
  (match f.old_cursor_bo with
   | some bo => [FlipEff.unrefCursor bo]
   | none => [])

/-! ## The driver-wide pending-flip queue (wedged handling) -/

/-- One entry of the driver-wide `dev_priv->flip.list`: its
transaction-level sequence number, its optional fence ring (a ring id;
`none` once the fence has signaled or been abandoned), and an identity
tag for order tracking. -/
structure FlipEntry where
  flip_seq : Nat
  ring : Option Nat
  id : Nat
  deriving Repr, DecidableEq

/-- The driver-wide flip bookkeeping: the FIFO pending list, the
sequence of completions handed to the flip helper so far, the ring
irq references released so far, and whether the flip work has been
queued. -/
structure FlipQueueState where
  list : List FlipEntry
  completed : List FlipEntry
  irq_puts : List Nat
  work_queued : Bool
  deriving Repr, DecidableEq

/-- `intel_atomic_flips_ready`: are all flips at the head of the list
sharing `flip_seq` free of fence waits? -/
def intel_atomic_flips_ready (l : List FlipEntry) (flip_seq : Nat) : Bool :=
  (l.takeWhile (fun f => f.flip_seq == flip_seq)).all (fun f => f.ring.isNone)

/-- Modelled from the spec: `intel_atomic_schedule_flips` hands a ready
group to the drm_flip helper (`drm_flip_driver_complete_flips` when the
pipe is off, prepare/evade/`drm_flip_driver_schedule_flips` when it is
on); drm_flip.c itself is not part of this excerpt.  Per the spec,
"per-pipeline hardware register updates and their completion events
are delivered in the order they were queued (… a FIFO list drained
only from its head, never reordered)", so handing over a group
completes its members in list order. -/
def intel_atomic_schedule_flips (st : FlipQueueState) (flips : List FlipEntry) :
    FlipQueueState :=
  { st with completed := st.completed ++ flips }

/-- One iteration and the loop of `intel_atomic_process_flips_work`:
repeatedly take the head group of flips sharing one `flip_seq`; if
every member's fence is ready, move the group off the pending list
and schedule it; otherwise stop.  `fuel` bounds the `for (;;)` loop;
each iteration removes at least one list entry, so the initial list
length suffices. -/
def intel_atomic_process_flips_go (fuel : Nat) (st : FlipQueueState) : FlipQueueState :=
  match fuel with
  | 0 => st
  | fuel + 1 =>
    match st.list with
    | [] => st
    | f :: _ =>
      if intel_atomic_flips_ready st.list f.flip_seq then
        let flips := st.list.takeWhile (fun g => g.flip_seq == f.flip_seq)
        let rest := st.list.dropWhile (fun g => g.flip_seq == f.flip_seq)
        intel_atomic_process_flips_go fuel
          (intel_atomic_schedule_flips { st with list := rest } flips)
      else st

/-- `intel_atomic_process_flips_work`. -/
def intel_atomic_process_flips_work (st : FlipQueueState) : FlipQueueState :=
  intel_atomic_process_flips_go st.list.length st

/-- `intel_atomic_wedged`: abandon the fence wait of every pending
flip (clear its ring reference, releasing the ring irq), then queue
the flip work if any flips are pending. -/
def intel_atomic_wedged (st : FlipQueueState) : FlipQueueState :=
  { st with
    list := st.list.map (fun f => { f with ring := none })
    irq_puts := st.irq_puts ++ st.list.filterMap (fun f => f.ring)
    work_queued := st.work_queued || !st.list.isEmpty }

/-! ## The atomic transaction engine (check / commit / restore)

Shallow embedding of the old i915 atomic-modeset path.  Live DRM
objects (`drm_crtc`, `intel_crtc`, `drm_plane`) are folded into the
per-object transaction states that reference them; framebuffers and
buffer objects are identified by small records / numeric ids.
Hardware and memory-manager side effects are collected in an explicit
effect trace. -/

/-- The `drm_display_mode` timing fields this code compares
(`drm_mode_equal` compares full timings; equality of this record
models it). -/
structure DrmMode where
  hdisplay : Nat
  vdisplay : Nat
  clock : Nat
  htotal : Nat
  vtotal : Nat
  deriving Repr, DecidableEq

/-- A framebuffer: numeric id, geometry and fourcc pixel format. -/
structure DrmFb where
  id : Nat
  width : Nat
  height : Nat
  pixel_format : Nat
  deriving Repr, DecidableEq

/-- fourcc codes of the pixel formats accepted by `check_crtc`. -/
def DRM_FORMAT_C8 : Nat := 0x20203843
def DRM_FORMAT_RGB565 : Nat := 0x36314752
def DRM_FORMAT_XRGB8888 : Nat := 0x34325258
def DRM_FORMAT_ARGB8888 : Nat := 0x34325241
def DRM_FORMAT_XBGR8888 : Nat := 0x34324258
def DRM_FORMAT_ABGR8888 : Nat := 0x34324241
def DRM_FORMAT_XRGB2101010 : Nat := 0x30335258
def DRM_FORMAT_ARGB2101010 : Nat := 0x30335241
def DRM_FORMAT_XBGR2101010 : Nat := 0x30334258
def DRM_FORMAT_ABGR2101010 : Nat := 0x30334241
def DRM_FORMAT_XRGB1555 : Nat := 0x35315258
def DRM_FORMAT_ARGB1555 : Nat := 0x35315241

/-- The pixel-format switch in `check_crtc`. -/
def crtc_format_supported (fmt : Nat) : Bool :=
  fmt == DRM_FORMAT_C8 || fmt == DRM_FORMAT_RGB565 ||
  fmt == DRM_FORMAT_XRGB8888 || fmt == DRM_FORMAT_ARGB8888 ||
  fmt == DRM_FORMAT_XBGR8888 || fmt == DRM_FORMAT_ABGR8888 ||
  fmt == DRM_FORMAT_XRGB2101010 || fmt == DRM_FORMAT_ARGB2101010 ||
  fmt == DRM_FORMAT_XBGR2101010 || fmt == DRM_FORMAT_ABGR2101010 ||
  fmt == DRM_FORMAT_XRGB1555 || fmt == DRM_FORMAT_ARGB1555

/-- The live fields of `drm_crtc`/`intel_crtc` that `set_property`
mutates and the check/commit path reads. -/
structure CrtcLive where
  id : Nat
  enabled : Bool
  mode : DrmMode
  fb : Option DrmFb
  x : Int
  y : Int
  cursor_bo : Option Nat
  cursor_handle : Nat
  cursor_x : Int
  cursor_y : Int
  cursor_width : Int
  cursor_height : Int
  deriving Repr, DecidableEq

/-- The `old` sub-record of `struct intel_crtc_state`, captured by
`intel_atomic_begin`. -/
structure CrtcOld where
  enabled : Bool
  mode : DrmMode
  fb : Option DrmFb
  x : Int
  y : Int
  connectors_bitmask : Nat
  encoders_bitmask : Nat
  cursor_bo : Option Nat
  cursor_handle : Nat
  cursor_x : Int
  cursor_y : Int
  cursor_width : Int
  cursor_height : Int
  cursor_visible : Bool
  deriving Repr, DecidableEq

/-- `struct intel_crtc_state` (live object folded in). -/
structure IntelCrtcState where
  crtc : CrtcLive
  mode_dirty : Bool
  fb_dirty : Bool
  cursor_dirty : Bool
  active_dirty : Bool
  pinned : Bool
  cursor_pinned : Bool
  connectors_bitmask : Nat
  encoders_bitmask : Nat
  changed : Bool
  event : Bool
  primary_disabled : Bool
  old : CrtcOld
  deriving Repr, DecidableEq

/-- Clipped plane coordinates (`struct intel_plane_coords`), produced
by the external collaborator `intel_check_plane`. -/
structure PlaneCoords where
  visible : Bool
  crtc_x : Int
  crtc_y : Int
  crtc_w : Nat
  crtc_h : Nat
  deriving Repr, DecidableEq

/-- The live fields of `drm_plane` the atomic code reads. -/
structure PlaneLive where
  id : Nat
  crtc : Option Nat
  fb : Option DrmFb
  src_x : Nat
  src_y : Nat
  src_w : Nat
  src_h : Nat
  crtc_x : Int
  crtc_y : Int
  crtc_w : Nat
  crtc_h : Nat
  deriving Repr, DecidableEq

/-- The `old` sub-record of `struct intel_plane_state`. -/
structure PlaneOld where
  crtc : Option Nat
  fb : Option DrmFb
  src_x : Nat
  src_y : Nat
  src_w : Nat
  src_h : Nat
  crtc_x : Int
  crtc_y : Int
  crtc_w : Nat
  crtc_h : Nat
  deriving Repr, DecidableEq

/-- `struct intel_plane_state` (live object folded in). -/
structure IntelPlaneState where
  plane : PlaneLive
  coords : PlaneCoords
  dirty : Bool
  pinned : Bool
  changed : Bool
  event : Bool
  old : PlaneOld
  deriving Repr, DecidableEq

/-- The transaction flags relevant here (`s->flags &
DRM_MODE_ATOMIC_NONBLOCK` / `DRM_MODE_ATOMIC_EVENT`). -/
structure AtomicFlags where
  nonblock : Bool
  event : Bool
  deriving Repr, DecidableEq

/-- `struct intel_atomic_state`. -/
structure IntelAtomicState where
  crtcs : List IntelCrtcState
  planes : List IntelPlaneState
  dirty : Bool
  restore_state : Bool
  restore_hw : Bool
  flags : AtomicFlags
  deriving Repr, DecidableEq

/-- `crtc_compute_dirty`: compute the per-pipe dirty flags from the
live-vs-old comparison and union them into the transaction's global
`dirty` flag.  Returns the updated global flag and crtc state. -/
def crtc_compute_dirty (s_dirty : Bool) (st : IntelCrtcState) : Bool × IntelCrtcState :=
  -- if no properties were specified nothing is dirty
  if !st.changed then (s_dirty, st)
  else
    -- The C code sets the four dirty flags with a sequence of
    -- independent `if (cond) st->x_dirty = true;` statements whose
    -- conditions never read the flags being set, so the sequence is
    -- rendered as one record update or-ing each condition in.
    -- fb/pan changed?
    let fb_chg := st.crtc.x != st.old.x || st.crtc.y != st.old.y ||
      st.crtc.fb != st.old.fb
    -- enabled <-> disabled?
    let enable_chg := st.crtc.enabled != st.old.enabled
    -- mode changed?
    let mode_chg := st.crtc.enabled && st.old.enabled && st.crtc.mode != st.old.mode
    -- ... with a different active area?
    let active_chg := mode_chg && (st.crtc.mode.hdisplay != st.old.mode.hdisplay ||
      st.crtc.mode.vdisplay != st.old.mode.vdisplay)
    -- connectors changed?
    let conn_chg := st.connectors_bitmask != st.old.connectors_bitmask ||
      st.encoders_bitmask != st.old.encoders_bitmask
    -- cursor changed?
    let cursor_chg := st.crtc.cursor_handle != st.old.cursor_handle ||
      st.crtc.cursor_x != st.old.cursor_x || st.crtc.cursor_y != st.old.cursor_y ||
      st.crtc.cursor_width != st.old.cursor_width ||
      st.crtc.cursor_height != st.old.cursor_height
    let st := { st with
      fb_dirty := st.fb_dirty || fb_chg
      mode_dirty := st.mode_dirty || enable_chg || mode_chg || conn_chg
      active_dirty := st.active_dirty || enable_chg || active_chg
      cursor_dirty := st.cursor_dirty || cursor_chg }
    (s_dirty || (st.fb_dirty || st.mode_dirty || st.cursor_dirty), st)

/-- `plane_compute_dirty`. -/
def plane_compute_dirty (s_dirty : Bool) (st : IntelPlaneState) :
    Bool × IntelPlaneState :=
  -- if no properties were specified nothing is dirty
  if !st.changed then (s_dirty, st)
  else
    let st := if st.plane.src_x != st.old.src_x || st.plane.src_y != st.old.src_y ||
        st.plane.src_w != st.old.src_w || st.plane.src_h != st.old.src_h ||
        st.plane.crtc_x != st.old.crtc_x || st.plane.crtc_y != st.old.crtc_y ||
        st.plane.crtc_w != st.old.crtc_w || st.plane.crtc_h != st.old.crtc_h ||
        st.plane.crtc != st.old.crtc || st.plane.fb != st.old.fb then
        { st with dirty := true } else st
    (s_dirty || st.dirty, st)

/-- The crtc pass of `intel_atomic_check`'s dirty computation. -/
def compute_crtcs_dirty (s_dirty : Bool) :
    List IntelCrtcState → Bool × List IntelCrtcState
  | [] => (s_dirty, [])
  | st :: rest =>
    let (d, st') := crtc_compute_dirty s_dirty st
    let (d', rest') := compute_crtcs_dirty d rest
    (d', st' :: rest')

/-- The plane pass of `intel_atomic_check`'s dirty computation. -/
def compute_planes_dirty (s_dirty : Bool) :
    List IntelPlaneState → Bool × List IntelPlaneState
  | [] => (s_dirty, [])
  | st :: rest =>
    let (d, st') := plane_compute_dirty s_dirty st
    let (d', rest') := compute_planes_dirty d rest
    (d', st' :: rest')

/-- `intel_crtc_in_use`: some encoder's `new_crtc` points at this crtc.
The encoders bitmask of the same transaction state records exactly
those encoders (`update_encoders_bitmask`), so the crtc is in use iff
the mask is nonzero. -/
def intel_crtc_in_use (st : IntelCrtcState) : Bool :=
  st.encoders_bitmask != 0

/-- Results of the external collaborators used by the check phase:
the combined encoder/crtc `mode_fixup` hooks, `intel_check_clock`,
and `intel_check_plane` (returning clipped coordinates). -/
structure CheckExt where
  mode_fixup_ok : IntelCrtcState → Bool
  check_clock : IntelCrtcState → Int
  check_plane : PlaneLive → Int × PlaneCoords

/-- `check_crtc`: per-pipe validation. -/
def check_crtc (ext : CheckExt) (st : IntelCrtcState) : Int :=
  let crtc := st.crtc
  -- must have a fb and connectors if we have a mode, and vice versa
  if crtc.enabled && crtc.fb == none then -EINVAL
  else if crtc.enabled && !(intel_crtc_in_use st) then -EINVAL
  else if !crtc.enabled && crtc.fb != none then -EINVAL
  else if !crtc.enabled && intel_crtc_in_use st then -EINVAL
  else
    let fbcheck : Int :=
      match crtc.fb with
      | none => 0
      | some fb =>
        if crtc.enabled &&
            (crtc.mode.hdisplay > fb.width || crtc.mode.vdisplay > fb.height ||
             crtc.x > (fb.width : Int) - crtc.mode.hdisplay ||
             crtc.y > (fb.height : Int) - crtc.mode.vdisplay) then -ENOSPC
        else if !(crtc_format_supported fb.pixel_format) then -EINVAL
        else 0
    if fbcheck != 0 then fbcheck
    else if crtc.cursor_handle != 0 &&
        (crtc.cursor_width != 64 || crtc.cursor_height != 64) then -EINVAL
    else if !crtc.enabled || !st.mode_dirty then 0
    -- mode fixup through the encoder helpers and the crtc, then clock
    else if !(ext.mode_fixup_ok st) then -EINVAL
    else ext.check_clock st

/-- `dirty_planes`: mark every plane currently bound to `crtc_id`
dirty so it gets reclipped/re-enabled across a modeset. -/
def dirty_planes (planes : List IntelPlaneState) (crtc_id : Nat) :
    List IntelPlaneState :=
  planes.map fun p =>
    if p.plane.crtc == some crtc_id then { p with dirty := true } else p

/-- The per-crtc validation loop of `intel_atomic_check`: skip clean
pipes, reject mode changes under `NONBLOCK` with `-EAGAIN`, validate
with `check_crtc`, and mark the planes of pipes whose active area
changes. -/
def check_crtcs_loop (ext : CheckExt) (nonblock : Bool) :
    List IntelCrtcState → List IntelPlaneState → List IntelPlaneState × Int
  | [], planes => (planes, 0)
  | st :: rest, planes =>
    if !st.fb_dirty && !st.mode_dirty && !st.cursor_dirty then
      check_crtcs_loop ext nonblock rest planes
    else if st.mode_dirty && nonblock then (planes, -EAGAIN)
    else
      let ret := check_crtc ext st
      if ret != 0 then (planes, ret)
      else
        let planes := if st.active_dirty || st.mode_dirty then
            dirty_planes planes st.crtc.id else planes
        check_crtcs_loop ext nonblock rest planes

/-- The encoder/connector conflict check of `intel_atomic_check`: no
two pipes may claim overlapping connector or encoder bitmasks. -/
def check_conflicts : List IntelCrtcState → Int
  | [] => 0
  | st :: rest =>
    if rest.any (fun st2 =>
        st.connectors_bitmask &&& st2.connectors_bitmask != 0 ||
        st.encoders_bitmask &&& st2.encoders_bitmask != 0) then -EINVAL
    else check_conflicts rest

/-- `update_primary_visibility`: a sprite covering the whole active
area disables the primary plane; flipping that state dirties the
pipe's fb state and the transaction. -/
def update_primary_visibility (crtcs : List IntelCrtcState) (s_dirty : Bool)
    (crtc_id : Nat) (coords : PlaneCoords) : List IntelCrtcState × Bool :=
  let f := fun (st : IntelCrtcState) =>
    if st.crtc.id == crtc_id then
      let primary_disabled := coords.visible && coords.crtc_x == 0 &&
        coords.crtc_y == 0 && coords.crtc_w == st.crtc.mode.hdisplay &&
        coords.crtc_h == st.crtc.mode.vdisplay
      if primary_disabled != st.primary_disabled then
        ({ st with fb_dirty := true, primary_disabled := primary_disabled }, true)
      else (st, false)
    else (st, false)
  let mapped := crtcs.map f
  (mapped.map Prod.fst, s_dirty || mapped.any Prod.snd)

/-- The plane validation loop of `intel_atomic_check`: clip each dirty
plane through `intel_check_plane` and recompute the primary-plane
visibility of the pipe it is (or was) bound to. -/
def check_planes_loop (ext : CheckExt) (crtcs : List IntelCrtcState) (s_dirty : Bool) :
    List IntelPlaneState →
    List IntelPlaneState × List IntelCrtcState × Bool × Int
  | [] => ([], crtcs, s_dirty, 0)
  | p :: rest =>
    if !p.dirty then
      let (ps, cs, d, r) := check_planes_loop ext crtcs s_dirty rest
      (p :: ps, cs, d, r)
    else
      let (ret, coords) := ext.check_plane p.plane
      if ret != 0 then (p :: rest, crtcs, s_dirty, ret)
      else
        let p' := { p with coords := coords }
        let target := match p.plane.crtc with
          | some c => some c
          | none => p.old.crtc
        let (crtcs', dirty') := match target with
          | none => (crtcs, s_dirty)
          | some cid => update_primary_visibility crtcs s_dirty cid coords
        let (ps, cs, d, r) := check_planes_loop ext crtcs' dirty' rest
        (p' :: ps, cs, d, r)

/-- `intel_atomic_check`. -/
def intel_atomic_check (ext : CheckExt) (s : IntelAtomicState) :
    IntelAtomicState × Int :=
  let (d1, crtcs1) := compute_crtcs_dirty s.dirty s.crtcs
  let (d2, planes1) := compute_planes_dirty d1 s.planes
  let s := { s with crtcs := crtcs1, planes := planes1, dirty := d2 }
  if !s.dirty then (s, 0)
  else
    let (planes2, r1) := check_crtcs_loop ext s.flags.nonblock crtcs1 planes1
    let s := { s with planes := planes2 }
    if r1 != 0 then (s, r1)
    else
      let r2 := check_conflicts crtcs1
      if r2 != 0 then (s, r2)
      else
        let (planes3, crtcs2, d3, r3) := check_planes_loop ext crtcs1 s.dirty planes2
        ({ s with planes := planes3, crtcs := crtcs2, dirty := d3 }, r3)

/-- Side effects of the commit/rollback path, in program order.
Objects are named by the id of the crtc or plane state performing the
operation. -/
inductive CommitEff where
  /-- `intel_pin_and_fence_fb_obj` for a crtc's new fb -/
  | pinCrtcFb (id : Nat)
  /-- `intel_pin_and_fence_fb_obj` for a plane's new fb -/
  | pinPlaneFb (id : Nat)
  /-- `intel_crtc_cursor_prepare` pinning a new cursor bo -/
  | pinCursor (id : Nat)
  /-- `intel_unpin_fb_obj` of a crtc's newly pinned fb (`unpin_fbs`) -/
  | unpinCrtcFb (id : Nat)
  /-- `intel_unpin_fb_obj` of a plane's newly pinned fb (`unpin_fbs`) -/
  | unpinPlaneFb (id : Nat)
  /-- `intel_crtc_cursor_bo_unref` of a newly pinned cursor (`unpin_cursors`) -/
  | unpinCursor (id : Nat)
  /-- `intel_unpin_fb_obj` of a crtc's old fb (`unpin_old_fbs`) -/
  | unpinOldCrtcFb (id : Nat)
  /-- `intel_unpin_fb_obj` of a plane's old fb (`unpin_old_fbs`) -/
  | unpinOldPlaneFb (id : Nat)
  /-- `intel_crtc_cursor_bo_unref` of an old cursor (`unpin_old_cursors`) -/
  | unpinOldCursor (id : Nat)
  /-- one `apply_config` hardware-programming pass -/
  | applyConfig
  /-- `atomic_pipe_commit` flip scheduling (non-blocking path) -/
  | nonblockCommit
  /-- `queue_event` of a completion event for an object -/
  | queueEvent (id : Nat)
  /-- `update_plane_obj` / `update_crtc` / `update_props` bookkeeping -/
  | updateBookkeeping
  /-- `restore_state`'s object-for-object copy-back from the saved
  snapshots -/
  | restoreObjects
  deriving Repr, DecidableEq

/-- Results of the external collaborators used by the commit phase. -/
structure CommitExt where
  pin_crtc_fb : Nat → Int
  pin_plane_fb : Nat → Int
  pin_cursor : Nat → Int
  apply_config : Int

/-- The per-crtc step of `alloc_flip_data`. -/
def alloc_crtc_flip_data (ev : Bool) (st : IntelCrtcState) : IntelCrtcState :=
  if st.changed && ev then { st with event := true } else st

/-- The per-plane step of `alloc_flip_data`. -/
def alloc_plane_flip_data (ev : Bool) (p : IntelPlaneState) : IntelPlaneState :=
  if p.changed && ev then { p with event := true } else p

/-- `alloc_flip_data`: allocate a completion event for every object
that was touched, when the transaction asked for events. -/
def alloc_flip_data (s : IntelAtomicState) : IntelAtomicState :=
  { s with
    crtcs := s.crtcs.map (alloc_crtc_flip_data s.flags.event)
    planes := s.planes.map (alloc_plane_flip_data s.flags.event) }

/-- `queue_remaining_events`: queue every still-pending completion
event (crtcs, then planes) and clear it from the state. -/
def queue_remaining_events (s : IntelAtomicState) :
    IntelAtomicState × List CommitEff :=
  let trc := (s.crtcs.filter (fun st => st.event)).map
    (fun st => CommitEff.queueEvent st.crtc.id)
  let trp := (s.planes.filter (fun p => p.event)).map
    (fun p => CommitEff.queueEvent p.plane.id)
  ({ s with
      crtcs := s.crtcs.map (fun st => { st with event := false })
      planes := s.planes.map (fun p => { p with event := false }) },
   trc ++ trp)

/-- `unpin_fbs`: unpin every newly pinned fb — planes in reverse, then
crtcs in reverse — clearing the `pinned` flags. -/
def unpin_fbs (s : IntelAtomicState) : IntelAtomicState × List CommitEff :=
  let trp := (s.planes.reverse.filter (fun p => p.pinned)).map
    (fun p => CommitEff.unpinPlaneFb p.plane.id)
  let trc := (s.crtcs.reverse.filter (fun st => st.pinned)).map
    (fun st => CommitEff.unpinCrtcFb st.crtc.id)
  ({ s with
      planes := s.planes.map (fun p => { p with pinned := false })
      crtcs := s.crtcs.map (fun st => { st with pinned := false }) },
   trp ++ trc)

/-- The crtc half of `pin_fbs`: pin the new fb of every fb-dirty crtc,
stopping at the first failure. -/
def pin_crtc_fbs_loop (ext : CommitExt) :
    List IntelCrtcState → List IntelCrtcState × List CommitEff × Int
  | [] => ([], [], 0)
  | st :: rest =>
    if !st.fb_dirty || st.crtc.fb == none then
      let (rest', tr, r) := pin_crtc_fbs_loop ext rest
      (st :: rest', tr, r)
    else
      let r := ext.pin_crtc_fb st.crtc.id
      if r != 0 then (st :: rest, [CommitEff.pinCrtcFb st.crtc.id], r)
      else
        let (rest', tr, r') := pin_crtc_fbs_loop ext rest
        ({ st with pinned := true } :: rest', CommitEff.pinCrtcFb st.crtc.id :: tr, r')

/-- The plane half of `pin_fbs`. -/
def pin_plane_fbs_loop (ext : CommitExt) :
    List IntelPlaneState → List IntelPlaneState × List CommitEff × Int
  | [] => ([], [], 0)
  | p :: rest =>
    if !p.dirty || p.plane.fb == none then
      let (rest', tr, r) := pin_plane_fbs_loop ext rest
      (p :: rest', tr, r)
    else
      let r := ext.pin_plane_fb p.plane.id
      if r != 0 then (p :: rest, [CommitEff.pinPlaneFb p.plane.id], r)
      else
        let (rest', tr, r') := pin_plane_fbs_loop ext rest
        ({ p with pinned := true } :: rest', CommitEff.pinPlaneFb p.plane.id :: tr, r')

/-- `pin_fbs`: pin the new scanout buffers (crtcs first, then planes);
on failure, unpin everything pinned so far and return the error. -/
def pin_fbs (ext : CommitExt) (s : IntelAtomicState) :
    IntelAtomicState × List CommitEff × Int :=
  let (crtcs', tr1, r1) := pin_crtc_fbs_loop ext s.crtcs
  let s := { s with crtcs := crtcs' }
  if r1 != 0 then
    let (s, tr2) := unpin_fbs s
    (s, tr1 ++ tr2, r1)
  else
    let (planes', tr2, r2) := pin_plane_fbs_loop ext s.planes
    let s := { s with planes := planes' }
    if r2 != 0 then
      let (s, tr3) := unpin_fbs s
      (s, tr1 ++ tr2 ++ tr3, r2)
    else (s, tr1 ++ tr2, 0)

/-- `unpin_cursors`: unref every newly pinned cursor bo, clearing the
`cursor_pinned` flags. -/
def unpin_cursors (s : IntelAtomicState) : IntelAtomicState × List CommitEff :=
  let tr := (s.crtcs.filter (fun st => st.cursor_pinned)).map
    (fun st => CommitEff.unpinCursor st.crtc.id)
  ({ s with crtcs := s.crtcs.map (fun st => { st with cursor_pinned := false }) }, tr)

/-- The loop of `pin_cursors`: run `intel_crtc_cursor_prepare` for
every cursor-dirty crtc (pinning the new cursor bo when there is
one), stopping at the first failure. -/
def pin_cursors_loop (ext : CommitExt) :
    List IntelCrtcState → List IntelCrtcState × List CommitEff × Int
  | [] => ([], [], 0)
  | st :: rest =>
    if !st.cursor_dirty then
      let (rest', tr, r) := pin_cursors_loop ext rest
      (st :: rest', tr, r)
    else
      let r := ext.pin_cursor st.crtc.id
      if r != 0 then (st :: rest, [], r)
      else
        let (st', tr0) :=
          if st.crtc.cursor_bo != none then
            ({ st with cursor_pinned := true }, [CommitEff.pinCursor st.crtc.id])
          else (st, [])
        let (rest', tr, r') := pin_cursors_loop ext rest
        (st' :: rest', tr0 ++ tr, r')

/-- `pin_cursors`: on failure, unpin the cursors pinned so far. -/
def pin_cursors (ext : CommitExt) (s : IntelAtomicState) :
    IntelAtomicState × List CommitEff × Int :=
  let (crtcs', tr1, r1) := pin_cursors_loop ext s.crtcs
  let s := { s with crtcs := crtcs' }
  if r1 != 0 then
    let (s, tr2) := unpin_cursors s
    (s, tr1 ++ tr2, r1)
  else (s, tr1, 0)

/-- `unpin_old_cursors`: release the old cursor bo of every
cursor-dirty crtc (success path only). -/
def unpin_old_cursors_trace (s : IntelAtomicState) : List CommitEff :=
  (s.crtcs.filter (fun st => st.cursor_dirty && st.old.cursor_bo != none)).map
    (fun st => CommitEff.unpinOldCursor st.crtc.id)

/-- `unpin_old_fbs`: release the old scanout fb of every dirty crtc
and plane (success path only). -/
def unpin_old_fbs_trace (s : IntelAtomicState) : List CommitEff :=
  (s.crtcs.filter (fun st => st.fb_dirty && st.old.fb != none)).map
    (fun st => CommitEff.unpinOldCrtcFb st.crtc.id) ++
  (s.planes.filter (fun p => p.dirty && p.old.fb != none)).map
    (fun p => CommitEff.unpinOldPlaneFb p.plane.id)

/-- `intel_atomic_commit`. -/
def intel_atomic_commit (ext : CommitExt) (s : IntelAtomicState) :
    IntelAtomicState × List CommitEff × Int :=
  let s := alloc_flip_data s
  if !s.dirty then
    let (s, tr) := queue_remaining_events s
    (s, tr, 0)
  else
    let (s, tr1, r1) := pin_fbs ext s
    if r1 != 0 then (s, tr1, r1)
    else
      let (s, tr2, r2) := pin_cursors ext s
      if r2 != 0 then (s, tr1 ++ tr2, r2)
      else if s.flags.nonblock then
        -- apply_nonblocking: queue flips; don't restore the old state in end()
        let s := { s with dirty := false, restore_state := false }
        let (s, tr4) := queue_remaining_events s
        (s, tr1 ++ tr2 ++ [CommitEff.nonblockCommit] ++ tr4 ++
          [CommitEff.updateBookkeeping], 0)
      else
        -- apply in a blocking manner
        let r3 := ext.apply_config
        if r3 != 0 then
          let (s, tr4) := unpin_cursors s
          let (s, tr5) := unpin_fbs s
          ({ s with restore_hw := true },
           tr1 ++ tr2 ++ [CommitEff.applyConfig] ++ tr4 ++ tr5, r3)
        else
          -- apply_config clears dirty/restore_state on success
          let s := { s with dirty := false, restore_state := false }
          let tr4 := unpin_old_cursors_trace s
          let tr5 := unpin_old_fbs_trace s
          let (s, tr6) := queue_remaining_events s
          (s, tr1 ++ tr2 ++ [CommitEff.applyConfig] ++ tr4 ++ tr5 ++ tr6 ++
            [CommitEff.updateBookkeeping], 0)

/-- `intel_atomic_end`: free remaining flip data, then, if any
property was set, restore every object from the saved snapshots —
reprogramming the hardware from the restored state when the commit
clobbered it (`restore_hw`). -/
def intel_atomic_end (s : IntelAtomicState) : List CommitEff :=
  if s.restore_state then
    CommitEff.restoreObjects :: (if s.restore_hw then [CommitEff.applyConfig] else [])
  else []

/-- `hweight32`: population count of a 32-bit mask. -/
def hweight32 (x : Nat) : Nat :=
  ((List.range 32).filter (fun i => x.testBit i)).length

/-- The resource-claim head of `intel_atomic_setup_scalers`: if the
staged scaling requests outnumber the pipe's scalers, fail with
`-EINVAL` before attaching anything; otherwise proceed to attach
scalers (`intel_crtc_setup_scaler` / `intel_plane_setup_scaler`,
modelled as the boolean "allocation performed"). -/
def intel_atomic_setup_scalers (scaler_users num_scalers : Nat) : Int × Bool :=
  let num_scaler_users := hweight32 scaler_users
  if num_scaler_users > num_scalers then (-EINVAL, false)
  else (0, true)

/-- Concrete pre-commit context used by witnesses: a 1920×1080 mode
with 1125 total lines and per-pipe scanline offset 1, VRR inactive. -/
def w8 : PreCommitCtx :=
  { needs_modeset := false
    vrr_disabling := false
    old_crtc_state :=
      { vtotal := 1125, vrr_vmax := 1200, vrr_enable := false, scanline_offset := 1 }
    new_crtc_state :=
      { vtotal := 1125, vrr_vmax := 1200, vrr_enable := false, scanline_offset := 1 } }

/-- Concrete flip descriptor used by witnesses. -/
def wFlip : IntelFlip :=
  { vbl_count := 0, old_fb_id := 0, old_bo := none, old_cursor_bo := none
    vblank_ref := false, has_cursor := false }

/-- Concrete fresh DSB used by witnesses (64 dwords, garbage-filled). -/
def wD0 : IntelDsb := dsb_fresh 64 (fun _ => 0xdeadbeef)

/-- Concrete DSB op sequence used by witnesses: three mergeable
register writes (odd data-word count, so the indexed write gets a zero
pad) followed by a raw wait instruction. -/
def wOps : List DsbOp :=
  [DsbOp.regWriteOp 0x70180 1, DsbOp.regWriteOp 0x70180 2, DsbOp.regWriteOp 0x70180 3,
   DsbOp.emitOp 100 (DSB_OPCODE_WAIT_USEC <<< DSB_OPCODE_SHIFT)]

/-- Trivial check-phase collaborators used by concrete states: mode
fixup always succeeds, the clock check passes, and plane checking
accepts the requested rectangle as fully visible. -/
def wCheckExt : CheckExt :=
  { mode_fixup_ok := fun _ => true
    check_clock := fun _ => 0
    check_plane := fun p =>
      (0, { visible := true, crtc_x := p.crtc_x, crtc_y := p.crtc_y,
            crtc_w := p.crtc_w, crtc_h := p.crtc_h }) }

/-- Commit-phase collaborators that always succeed. -/
def wCommitExt : CommitExt :=
  { pin_crtc_fb := fun _ => 0, pin_plane_fb := fun _ => 0
    pin_cursor := fun _ => 0, apply_config := 0 }

/-- A 1920×1080 mode used by the concrete states. -/
def wMode : DrmMode :=
  { hdisplay := 1920, vdisplay := 1080, clock := 148500, htotal := 2200,
    vtotal := 1125 }

/-- Framebuffers used by the concrete states. -/
def wFb : DrmFb :=
  { id := 10, width := 1920, height := 1080, pixel_format := DRM_FORMAT_XRGB8888 }

/-- A second framebuffer with the same geometry. -/
def wFb2 : DrmFb :=
  { id := 11, width := 1920, height := 1080, pixel_format := DRM_FORMAT_XRGB8888 }

/-- A clean, untouched crtc state: enabled pipe scanning out `wFb`,
no properties set in this transaction. -/
def wC2crtc : IntelCrtcState :=
  { crtc := { id := 1, enabled := true, mode := wMode, fb := some wFb, x := 0,
              y := 0, cursor_bo := none, cursor_handle := 0, cursor_x := 0,
              cursor_y := 0, cursor_width := 0, cursor_height := 0 }
    mode_dirty := false, fb_dirty := false, cursor_dirty := false
    active_dirty := false, pinned := false, cursor_pinned := false
    connectors_bitmask := 1, encoders_bitmask := 1
    changed := false, event := false, primary_disabled := false
    old := { enabled := true, mode := wMode, fb := some wFb, x := 0, y := 0,
             connectors_bitmask := 1, encoders_bitmask := 1, cursor_bo := none,
             cursor_handle := 0, cursor_x := 0, cursor_y := 0, cursor_width := 0,
             cursor_height := 0, cursor_visible := false } }

/-- A clean, untouched plane state bound to crtc 1. -/
def wC2plane : IntelPlaneState :=
  { plane := { id := 5, crtc := some 1, fb := some wFb, src_x := 0, src_y := 0,
               src_w := 1920, src_h := 1080, crtc_x := 0, crtc_y := 0,
               crtc_w := 1920, crtc_h := 1080 }
    coords := { visible := false, crtc_x := 0, crtc_y := 0, crtc_w := 0,
                crtc_h := 0 }
    dirty := false, pinned := false, changed := false, event := false
    old := { crtc := some 1, fb := some wFb, src_x := 0, src_y := 0,
             src_w := 1920, src_h := 1080, crtc_x := 0, crtc_y := 0,
             crtc_w := 1920, crtc_h := 1080 } }

/-- A transaction in which no property was set on any object. -/
def wC2State : IntelAtomicState :=
  { crtcs := [wC2crtc], planes := [wC2plane], dirty := false
    restore_state := false, restore_hw := false
    flags := { nonblock := false, event := false } }

/-- Crtc 1 with its fb swapped from `wFb` to `wFb2` (fb-dirty only,
and it passes `check_crtc`). -/
def w1crtcA : IntelCrtcState :=
  { wC2crtc with crtc := { wC2crtc.crtc with fb := some wFb2 }, changed := true }

/-- Crtc 2 being enabled in this transaction (mode-dirty). -/
def w1crtcB : IntelCrtcState :=
  { crtc := { id := 2, enabled := true, mode := wMode, fb := some wFb, x := 0,
              y := 0, cursor_bo := none, cursor_handle := 0, cursor_x := 0,
              cursor_y := 0, cursor_width := 0, cursor_height := 0 }
    mode_dirty := false, fb_dirty := false, cursor_dirty := false
    active_dirty := false, pinned := false, cursor_pinned := false
    connectors_bitmask := 2, encoders_bitmask := 2
    changed := true, event := false, primary_disabled := false
    old := { enabled := false, mode := wMode, fb := some wFb, x := 0, y := 0,
             connectors_bitmask := 2, encoders_bitmask := 2, cursor_bo := none,
             cursor_handle := 0, cursor_x := 0, cursor_y := 0, cursor_width := 0,
             cursor_height := 0, cursor_visible := false } }

/-- Non-blocking transaction: a valid page flip on pipe 1 scanned
before the mode change on pipe 2. -/
def w1State : IntelAtomicState :=
  { crtcs := [w1crtcA, w1crtcB], planes := [], dirty := false
    restore_state := false, restore_hw := false
    flags := { nonblock := true, event := false } }

/-- Crtc 1 with its fb *removed* while the pipe stays enabled: fb-dirty
and invalid (`check_crtc` rejects an enabled pipe without an fb). -/
def w1crtcABad : IntelCrtcState :=
  { wC2crtc with crtc := { wC2crtc.crtc with fb := none }, changed := true }

/-- Non-blocking transaction: an *invalid* fb change on pipe 1 scanned
before the mode change on pipe 2. -/
def w1BadState : IntelAtomicState :=
  { crtcs := [w1crtcABad, w1crtcB], planes := [], dirty := false
    restore_state := false, restore_hw := false
    flags := { nonblock := true, event := false } }

/-- Crtc 1 with a cursor move staged (cursor-dirty only; its cursor
handle is 0 so `check_crtc` accepts it). -/
def w6crtcA : IntelCrtcState :=
  { wC2crtc with crtc := { wC2crtc.crtc with cursor_x := 5 }, changed := true }

/-- A second, untouched pipe whose connector bitmask overlaps pipe 1's. -/
def w6crtcB : IntelCrtcState :=
  { w1crtcB with
    crtc := { w1crtcB.crtc with enabled := true }
    connectors_bitmask := 1
    encoders_bitmask := 4
    changed := false
    old := { w1crtcB.old with
             enabled := true
             connectors_bitmask := 1
             encoders_bitmask := 4 } }

/-- Blocking transaction with a dirty pipe and an output-sink bitmask
conflict between pipes 1 and 2. -/
def w6State : IntelAtomicState :=
  { crtcs := [w6crtcA, w6crtcB], planes := [], dirty := false
    restore_state := false, restore_hw := false
    flags := { nonblock := false, event := false } }

/-- The condition under which `pin_fbs` pins a crtc's new fb. -/
def commit_pc (st : IntelCrtcState) : Bool :=
  st.fb_dirty && st.crtc.fb != none

/-- The condition under which `pin_fbs` pins a plane's new fb. -/
def commit_pp (p : IntelPlaneState) : Bool :=
  p.dirty && p.plane.fb != none

/-- The condition under which `pin_cursors` pins a new cursor bo. -/
def commit_pcur (st : IntelCrtcState) : Bool :=
  st.cursor_dirty && st.crtc.cursor_bo != none

/-- The per-crtc state effect of a successful `pin_fbs` pass. -/
def commit_fc (st : IntelCrtcState) : IntelCrtcState :=
  if commit_pc st then { st with pinned := true } else st

/-- The per-plane state effect of a successful `pin_fbs` pass. -/
def commit_fp (p : IntelPlaneState) : IntelPlaneState :=
  if commit_pp p then { p with pinned := true } else p

/-- The per-crtc state effect of a successful `pin_cursors` pass. -/
def commit_fcur (st : IntelCrtcState) : IntelCrtcState :=
  if commit_pcur st then { st with cursor_pinned := true } else st

/-- Clearing a crtc's `cursor_pinned` flag (`unpin_cursors`). -/
def clear_cursor_pinned (st : IntelCrtcState) : IntelCrtcState :=
  { st with cursor_pinned := false }

/-- Clearing a crtc's `pinned` flag (`unpin_fbs`). -/
def clear_crtc_pinned (st : IntelCrtcState) : IntelCrtcState :=
  { st with pinned := false }

/-- Clearing a plane's `pinned` flag (`unpin_fbs`). -/
def clear_plane_pinned (p : IntelPlaneState) : IntelPlaneState :=
  { p with pinned := false }

/-- Commit collaborators whose hardware-programming pass fails with a
fixed error (-5, `-EIO`) after all pinning succeeded. -/
def wC3Ext : CommitExt :=
  { pin_crtc_fb := fun _ => 0, pin_plane_fb := fun _ => 0
    pin_cursor := fun _ => 0, apply_config := -5 }

/-- A checked crtc state with a dirty fb and a dirty, present cursor. -/
def wC3crtc : IntelCrtcState :=
  { w1crtcA with
    fb_dirty := true
    cursor_dirty := true
    crtc := { w1crtcA.crtc with
              cursor_bo := some 77
              cursor_handle := 7
              cursor_x := 5
              cursor_width := 64
              cursor_height := 64 } }

/-- A checked plane state with a dirty fb. -/
def wC3plane : IntelPlaneState :=
  { wC2plane with
    dirty := true
    changed := true
    plane := { wC2plane.plane with fb := some wFb2 } }

/-- A dirty blocking transaction about to be committed. -/
def wC3State : IntelAtomicState :=
  { crtcs := [wC3crtc], planes := [wC3plane], dirty := true
    restore_state := true, restore_hw := false
    flags := { nonblock := false, event := false } }

/-! ## Helper lemmas -/

theorem kalign_two (x : Nat) : kalign x 2 = x + x % 2 := by
  unfold kalign
  omega

theorem and_bit31_iff (x : Nat) (h : x < 2 ^ 32) :
    x &&& 0x80000000 = 0 ↔ x < 2 ^ 31 := by
  have h1 : x &&& 2 ^ 31 = (x.testBit 31).toNat * 2 ^ 31 := Nat.and_two_pow x 31
  have h2 : x.testBit 31 = decide (x / 2 ^ 31 % 2 = 1) := Nat.testBit_to_div_mod
  have e : (0x80000000 : Nat) = 2 ^ 31 := by norm_num
  rw [e, h1]
  rcases Bool.eq_false_or_eq_true (x.testBit 31) with hb | hb <;>
    rw [hb] at h2 ⊢ <;> simp at h2 ⊢ <;> omega

theorem and_bit23_iff (x : Nat) : x &&& 0x800000 = 0 ↔ x % 2 ^ 24 < 2 ^ 23 := by
  have h1 : x &&& 2 ^ 23 = (x.testBit 23).toNat * 2 ^ 23 := Nat.and_two_pow x 23
  have h2 : x.testBit 23 = decide (x / 2 ^ 23 % 2 = 1) := Nat.testBit_to_div_mod
  have e : (0x800000 : Nat) = 2 ^ 23 := by norm_num
  rw [e, h1]
  rcases Bool.eq_false_or_eq_true (x.testBit 23) with hb | hb <;>
    rw [hb] at h2 ⊢ <;> simp at h2 ⊢ <;> omega

theorem and_mask24 (x : Nat) : x &&& 0xffffff = x % 2 ^ 24 := by
  have := Nat.and_pow_two_sub_one_eq_mod x 24
  norm_num at this ⊢
  exact this

theorem and_low20 (c reg : Nat) (h : reg < 2 ^ 20) :
    (2 ^ 20 * c + reg) &&& 0xfffff = reg := by
  have e : (0xfffff : Nat) = 2 ^ 20 - 1 := by norm_num
  rw [e, Nat.and_pow_two_sub_one_eq_mod]
  omega

theorem and_high12 (c reg : Nat) (h : reg < 2 ^ 20) (hc : c &&& 0xfff = c) :
    (2 ^ 20 * c + reg) &&& 0xfff00000 = 2 ^ 20 * c := by
  have e : (0xfff00000 : Nat) = 2 ^ 20 * 0xfff := by norm_num
  apply Nat.eq_of_testBit_eq
  intro j
  rw [Nat.testBit_land, e, Nat.testBit_mul_pow_two, Nat.testBit_mul_pow_two,
    Nat.testBit_mul_pow_two_add _ h]
  by_cases hj : j < 20
  · simp [hj, Nat.not_le_of_lt hj]
  · have hge : 20 ≤ j := Nat.le_of_not_lt hj
    have h2 : (c.testBit (j - 20) && Nat.testBit 0xfff (j - 20)) = c.testBit (j - 20) := by
      have h3 := congrArg (fun x => Nat.testBit x (j - 20)) hc
      simp only [Nat.testBit_land] at h3
      exact h3
    simp only [hj, if_false, decide_eq_true_eq]
    simp only [hge, decide_True, Bool.true_and]
    exact h2

theorem mmio_hdr_eq (reg : Nat) (h : reg < 2 ^ 20) :
    dsb_mmio_hdr reg = 2 ^ 20 * 0x1f + reg := by
  have e : (DSB_OPCODE_MMIO_WRITE <<< DSB_OPCODE_SHIFT) |||
      (DSB_BYTE_EN <<< DSB_BYTE_EN_SHIFT) = 2 ^ 20 * 0x1f := by decide
  rw [dsb_mmio_hdr, e, ← Nat.mul_add_lt_is_or h]

theorem idx_hdr_eq (reg : Nat) (h : reg < 2 ^ 20) :
    dsb_idx_hdr reg = 2 ^ 20 * 0x90 + reg := by
  have e : DSB_OPCODE_INDEXED_WRITE <<< DSB_OPCODE_SHIFT = 2 ^ 20 * 0x90 := by decide
  rw [dsb_idx_hdr, e, ← Nat.mul_add_lt_is_or h]

theorem mmio_hdr_and_inv (reg : Nat) (h : reg < 2 ^ 20) :
    dsb_mmio_hdr reg &&& DSB_REG_VALUE_MASK_INV =
      (DSB_OPCODE_MMIO_WRITE <<< DSB_OPCODE_SHIFT) |||
        (DSB_BYTE_EN <<< DSB_BYTE_EN_SHIFT) := by
  rw [mmio_hdr_eq reg h]
  have := and_high12 0x1f reg h (by decide)
  rw [DSB_REG_VALUE_MASK_INV, this]
  decide

theorem mmio_hdr_and_mask (reg : Nat) (h : reg < 2 ^ 20) :
    dsb_mmio_hdr reg &&& DSB_REG_VALUE_MASK = reg := by
  rw [mmio_hdr_eq reg h, DSB_REG_VALUE_MASK]
  exact and_low20 _ _ h

theorem idx_hdr_and_inv (reg : Nat) (h : reg < 2 ^ 20) :
    dsb_idx_hdr reg &&& DSB_REG_VALUE_MASK_INV =
      DSB_OPCODE_INDEXED_WRITE <<< DSB_OPCODE_SHIFT := by
  rw [idx_hdr_eq reg h]
  have := and_high12 0x90 reg h (by decide)
  rw [DSB_REG_VALUE_MASK_INV, this]
  decide

theorem idx_hdr_and_mask (reg : Nat) (h : reg < 2 ^ 20) :
    dsb_idx_hdr reg &&& DSB_REG_VALUE_MASK = reg := by
  rw [idx_hdr_eq reg h, DSB_REG_VALUE_MASK]
  exact and_low20 _ _ h

theorem mmio_hdr_shr24 (reg : Nat) (h : reg < 2 ^ 20) :
    dsb_mmio_hdr reg >>> DSB_OPCODE_SHIFT = DSB_OPCODE_MMIO_WRITE := by
  rw [mmio_hdr_eq reg h, DSB_OPCODE_SHIFT, DSB_OPCODE_MMIO_WRITE,
    Nat.shiftRight_eq_div_pow]
  omega

theorem idx_hdr_shr24 (reg : Nat) (h : reg < 2 ^ 20) :
    dsb_idx_hdr reg >>> DSB_OPCODE_SHIFT = DSB_OPCODE_INDEXED_WRITE := by
  rw [idx_hdr_eq reg h, DSB_OPCODE_SHIFT, DSB_OPCODE_INDEXED_WRITE,
    Nat.shiftRight_eq_div_pow]
  omega

theorem prev_mmio_of_mmioShape {d : IntelDsb} {size reg v : Nat}
    (h : MmioShape d size reg v) (hreg : reg < 2 ^ 20) :
    intel_dsb_prev_ins_is_mmio_write d reg = true := by
  obtain ⟨hsz, hfree, hins, hb0, hb1⟩ := h
  unfold intel_dsb_prev_ins_is_mmio_write intel_dsb_prev_ins_is_write dsb_buffer_read
  rw [hfree, hins]
  simp [hb1, mmio_hdr_and_inv reg hreg, mmio_hdr_and_mask reg hreg]

theorem prev_idx_of_mmioShape {d : IntelDsb} {size reg v : Nat}
    (h : MmioShape d size reg v) (hreg : reg < 2 ^ 20) :
    intel_dsb_prev_ins_is_indexed_write d reg = false := by
  obtain ⟨hsz, hfree, hins, hb0, hb1⟩ := h
  have hne : ((DSB_OPCODE_MMIO_WRITE <<< DSB_OPCODE_SHIFT |||
      DSB_BYTE_EN <<< DSB_BYTE_EN_SHIFT : Nat) ==
      DSB_OPCODE_INDEXED_WRITE <<< DSB_OPCODE_SHIFT) = false := by decide
  unfold intel_dsb_prev_ins_is_indexed_write intel_dsb_prev_ins_is_write dsb_buffer_read
  rw [hfree, hins]
  simp only [hb1, mmio_hdr_and_inv reg hreg]
  simp [hne]

theorem prev_mmio_of_idxShape {d : IntelDsb} {size reg : Nat} {vals : List Nat}
    (h : IdxShape d size reg vals) (hreg : reg < 2 ^ 20) :
    intel_dsb_prev_ins_is_mmio_write d reg = false := by
  obtain ⟨hsz, hfree, hins, hb0, hb1, hdata⟩ := h
  have hne : ((DSB_OPCODE_INDEXED_WRITE <<< DSB_OPCODE_SHIFT : Nat) ==
      (DSB_OPCODE_MMIO_WRITE <<< DSB_OPCODE_SHIFT |||
       DSB_BYTE_EN <<< DSB_BYTE_EN_SHIFT)) = false := by decide
  unfold intel_dsb_prev_ins_is_mmio_write intel_dsb_prev_ins_is_write dsb_buffer_read
  rw [hfree, hins]
  simp only [hb1, idx_hdr_and_inv reg hreg]
  simp [hne]

theorem reg_write_fresh (size reg v : Nat) (buf0 : Nat → Nat) :
    MmioShape (intel_dsb_reg_write (dsb_fresh size buf0) reg v) size reg v := by
  have hm : intel_dsb_prev_ins_is_mmio_write (dsb_fresh size buf0) reg = false := by
    unfold intel_dsb_prev_ins_is_mmio_write intel_dsb_prev_ins_is_write dsb_fresh
    simp
  have hi : intel_dsb_prev_ins_is_indexed_write (dsb_fresh size buf0) reg = false := by
    unfold intel_dsb_prev_ins_is_indexed_write intel_dsb_prev_ins_is_write dsb_fresh
    simp
  unfold intel_dsb_reg_write
  rw [hm, hi]
  unfold intel_dsb_emit assert_dsb_has_room dsb_buffer_write dsb_fresh kalign
  norm_num [MmioShape, dsb_mmio_hdr]

theorem prev_idx_of_idxShape {d : IntelDsb} {size reg : Nat} {vals : List Nat}
    (h : IdxShape d size reg vals) (hreg : reg < 2 ^ 20) :
    intel_dsb_prev_ins_is_indexed_write d reg = true := by
  obtain ⟨hsz, hfree, hins, hb0, hb1, hdata⟩ := h
  unfold intel_dsb_prev_ins_is_indexed_write intel_dsb_prev_ins_is_write dsb_buffer_read
  rw [hfree, hins]
  simp [hb1, idx_hdr_and_inv reg hreg, idx_hdr_and_mask reg hreg]

theorem reg_write_mmio_step {d : IntelDsb} {size reg v1 : Nat} (v : Nat)
    (h : MmioShape d size reg v1) (hreg : reg < 2 ^ 20) (hroom : 4 ≤ size) :
    IdxShape (intel_dsb_reg_write d reg v) size reg [v1, v] := by
  have hm := prev_mmio_of_mmioShape h hreg
  have hi := prev_idx_of_mmioShape h hreg
  obtain ⟨hsz, hfree, hins, hb0, hb1⟩ := h
  have hr : assert_dsb_has_room d = true := by
    unfold assert_dsb_has_room
    rw [hfree, hsz]
    have h2 : ¬(2 > size - 2) := by omega
    simp [h2]
  unfold intel_dsb_reg_write
  rw [hm, hi, hr]
  unfold dsb_buffer_write dsb_buffer_read
  simp only [hfree, hins, hsz, hb0, hb1]
  refine ⟨by simp, by simp, by simp, by norm_num, ?_, ?_⟩
  · norm_num [dsb_idx_hdr]
  · intro j hj
    have hj2 : j < 2 := by simpa using hj
    interval_cases j <;> norm_num [List.getD]

theorem reg_write_idx_step {d : IntelDsb} {size reg : Nat} {vals : List Nat} (v : Nat)
    (h : IdxShape d size reg vals) (hreg : reg < 2 ^ 20)
    (hroom : vals.length + 4 ≤ size) :
    IdxShape (intel_dsb_reg_write d reg v) size reg (vals ++ [v]) := by
  have hm := prev_mmio_of_idxShape h hreg
  have hi := prev_idx_of_idxShape h hreg
  obtain ⟨hsz, hfree, hins, hb0, hb1, hdata⟩ := h
  have hr : assert_dsb_has_room d = true := by
    unfold assert_dsb_has_room
    rw [hfree, hsz]
    have h2 : ¬(2 + vals.length > size - 2) := by omega
    simp [h2]
  unfold intel_dsb_reg_write
  rw [hm, hi, hr]
  unfold dsb_buffer_write dsb_buffer_read
  simp only [Bool.not_false, Bool.not_true, Bool.false_and, Bool.true_and,
    Bool.false_eq_true, if_false]
  have na : ¬((0 : Nat) = 2 + vals.length + 1) := by omega
  have nb : ¬((0 : Nat) = 2 + vals.length) := by omega
  have nc : ¬((1 : Nat) = 2 + vals.length + 1) := by omega
  have nd : ¬((1 : Nat) = 0) := by omega
  have ne1 : ¬((1 : Nat) = 2 + vals.length) := by omega
  by_cases hp : ((d.free_pos + 1) &&& 1 != 0) = true
  case pos =>
    rw [if_pos hp]
    simp only [hfree, hins, hsz, hb0, hb1]
    refine ⟨rfl, ?_, rfl, ?_, ?_, ?_⟩
    · simp only [List.length_append, List.length_cons, List.length_nil]
      omega
    · simp only [na, nb, eq_self_iff_true, if_true, ite_false, if_false,
        List.length_append, List.length_cons, List.length_nil]
    · simp only [nc, nd, ne1, ite_false, if_false]
      exact hb1
    · intro j hj
      simp only [List.length_append, List.length_cons, List.length_nil] at hj
      have nf : ¬(2 + j = 2 + vals.length + 1) := by omega
      have ng : ¬(2 + j = 0) := by omega
      rcases Nat.lt_or_ge j vals.length with hlt | hge
      · have nh : ¬(2 + j = 2 + vals.length) := by omega
        simp only [nf, ng, nh, ite_false, if_false]
        rw [hdata j hlt, List.getD_append _ _ _ _ hlt]
      · have hj' : j = vals.length := by omega
        subst hj'
        simp only [nf, ng, eq_self_iff_true, if_true, ite_false, if_false]
        rw [List.getD_append_right _ _ _ _ (le_refl _)]
        simp
  case neg =>
    rw [if_neg hp]
    simp only [hfree, hins, hsz, hb0, hb1]
    refine ⟨rfl, ?_, rfl, ?_, ?_, ?_⟩
    · simp only [List.length_append, List.length_cons, List.length_nil]
      omega
    · simp only [nb, eq_self_iff_true, if_true, ite_false, if_false,
        List.length_append, List.length_cons, List.length_nil]
    · simp only [nd, ne1, ite_false, if_false]
      exact hb1
    · intro j hj
      simp only [List.length_append, List.length_cons, List.length_nil] at hj
      have ng : ¬(2 + j = 0) := by omega
      rcases Nat.lt_or_ge j vals.length with hlt | hge
      · have nh : ¬(2 + j = 2 + vals.length) := by omega
        simp only [ng, nh, ite_false, if_false]
        rw [hdata j hlt, List.getD_append _ _ _ _ hlt]
      · have hj' : j = vals.length := by omega
        subst hj'
        simp only [ng, eq_self_iff_true, if_true, ite_false, if_false]
        rw [List.getD_append_right _ _ _ _ (le_refl _)]
        simp

theorem emit_reg_writes_extend (reg : Nat) (hreg : reg < 2 ^ 20) (size : Nat) :
    ∀ (rest : List Nat) (d : IntelDsb) (vals : List Nat),
      IdxShape d size reg vals → 2 ≤ vals.length →
      vals.length + rest.length + 4 ≤ size →
      IdxShape (dsb_emit_reg_writes d reg rest) size reg (vals ++ rest) := by
  intro rest
  induction rest with
  | nil =>
    intro d vals h _ _
    simpa [dsb_emit_reg_writes] using h
  | cons r rest ih =>
    intro d vals h h2 hroom
    simp only [List.length_cons] at hroom
    have hstep := reg_write_idx_step r h hreg (by omega)
    have hlen : 2 ≤ (vals ++ [r]).length := by
      simp only [List.length_append, List.length_cons, List.length_nil]
      omega
    have hroom' : (vals ++ [r]).length + rest.length + 4 ≤ size := by
      simp only [List.length_append, List.length_cons, List.length_nil]
      omega
    have hmain := ih (intel_dsb_reg_write d reg r) (vals ++ [r]) hstep hlen hroom'
    simpa [dsb_emit_reg_writes, List.append_assoc] using hmain

theorem range_map_getD (l : List Nat) (reg : Nat) :
    (List.range l.length).map (fun k => (reg, l.getD k 0)) =
      l.map (fun v => (reg, v)) := by
  induction l with
  | nil => simp
  | cons a l ih =>
    simp only [List.length_cons, List.range_succ_eq_map, List.map_cons, List.map_map,
      List.getD_cons_zero]
    rw [← ih]
    refine congrArg (List.cons (reg, a)) ?_
    apply List.map_congr_left
    intro k _
    simp [Function.comp, List.getD_cons_succ]

theorem dsb_decode_go_end (buf : Nat → Nat) (endPos pos fuel : Nat)
    (h : endPos < pos + 2) : dsb_decode_go buf endPos pos fuel = [] := by
  cases fuel with
  | zero => rfl
  | succ k =>
    unfold dsb_decode_go
    rw [if_pos (by omega)]

theorem dsb_decode_mmio {d : IntelDsb} {size reg v : Nat}
    (h : MmioShape d size reg v) (hreg : reg < 2 ^ 20) :
    dsb_decode d = [(reg, v)] := by
  obtain ⟨hsz, hfree, hins, hb0, hb1⟩ := h
  unfold dsb_decode
  rw [hfree]
  have e2 : kalign 2 2 = 2 := by decide
  rw [e2]
  unfold dsb_decode_go
  rw [if_neg (by omega)]
  simp only [hb0, hb1, mmio_hdr_shr24 reg hreg, mmio_hdr_and_mask reg hreg]
  rw [if_pos (by decide)]
  rw [dsb_decode_go_end _ _ _ _ (by omega)]

theorem dsb_decode_idx {d : IntelDsb} {size reg : Nat} {vals : List Nat}
    (h : IdxShape d size reg vals) (hreg : reg < 2 ^ 20) (h2 : 2 ≤ vals.length) :
    dsb_decode d = vals.map (fun v => (reg, v)) := by
  obtain ⟨hsz, hfree, hins, hb0, hb1, hdata⟩ := h
  unfold dsb_decode
  rw [hfree]
  obtain ⟨m, hm⟩ : ∃ m, kalign (2 + vals.length) 2 = m + 1 :=
    ⟨kalign (2 + vals.length) 2 - 1, by unfold kalign; omega⟩
  have hm4 : 4 ≤ m + 1 := by
    rw [← hm]; unfold kalign; omega
  rw [hm]
  unfold dsb_decode_go
  rw [if_neg (by omega)]
  simp only [hb0, hb1, idx_hdr_shr24 reg hreg, idx_hdr_and_mask reg hreg]
  rw [if_neg (by decide), if_pos (by decide)]
  have hdat : (List.range vals.length).map (fun k => (reg, d.buf (0 + 2 + k))) =
      vals.map (fun v => (reg, v)) := by
    rw [← range_map_getD vals reg]
    apply List.map_congr_left
    intro k hk
    rw [List.mem_range] at hk
    rw [show 0 + 2 + k = 2 + k from by omega, hdata k hk]
  rw [hdat, dsb_decode_go_end _ _ _ _ (by rw [← hm]; unfold kalign; omega)]
  simp

/-! ## Claim theorems: command-buffer encode/decode round trip (C7) -/

/-- **C7**: for every register `R` (a 20-bit MMIO offset), every value
sequence `v1..vN` and every command buffer with room for the writes,
emitting the N consecutive writes through `intel_dsb_reg_write` and
decoding the resulting instruction stream (direct MMIO writes and
indexed writes with count, the trailing zero pad of an odd data-word
count being skipped by the 2-dword alignment) yields exactly the N
pairs `(R,v1)..(R,vN)` in program order — independently of whether the
consecutive writes were merged into an indexed write (N = 1 stays a
direct write, N ≥ 2 is merged). -/
theorem intel_dsb_reg_write_decode_roundtrip (reg : Nat) (hreg : reg < 2 ^ 20)
    (vals : List Nat) (size : Nat) (hsz : vals.length + 4 ≤ size) (buf0 : Nat → Nat) :
    dsb_decode (dsb_emit_reg_writes (dsb_fresh size buf0) reg vals) =
      vals.map (fun v => (reg, v)) := by
  match vals with
  | [] => simp [dsb_decode, dsb_emit_reg_writes, dsb_fresh, kalign, dsb_decode_go]
  | [v] =>
    have h1 := reg_write_fresh size reg v buf0
    have e : dsb_emit_reg_writes (dsb_fresh size buf0) reg [v] =
        intel_dsb_reg_write (dsb_fresh size buf0) reg v := rfl
    rw [e, dsb_decode_mmio h1 hreg]
    rfl
  | v1 :: v2 :: rest =>
    simp only [List.length_cons] at hsz
    have h1 := reg_write_fresh size reg v1 buf0
    have h2 := reg_write_mmio_step v2 h1 hreg (by omega)
    have h3 := emit_reg_writes_extend reg hreg size rest _ [v1, v2] h2 (by norm_num)
      (by simp only [List.length_cons, List.length_nil]; omega)
    have e : dsb_emit_reg_writes (dsb_fresh size buf0) reg (v1 :: v2 :: rest) =
        dsb_emit_reg_writes
          (intel_dsb_reg_write (intel_dsb_reg_write (dsb_fresh size buf0) reg v1) reg v2)
          reg rest := rfl
    rw [e, dsb_decode_idx h3 hreg
      (by simp only [List.length_append, List.length_cons, List.length_nil]; omega)]
    simp

/-- Witness for C7: three consecutive writes to register 0x70180 merge
into one indexed write and decode back to the three pairs. -/
theorem intel_dsb_reg_write_decode_roundtrip_witness :
    (0x70180 : Nat) < 2 ^ 20 ∧
    dsb_decode (dsb_emit_reg_writes (dsb_fresh 16 (fun _ => 0xdeadbeef)) 0x70180 [5, 6, 7]) =
      [(0x70180, 5), (0x70180, 6), (0x70180, 7)] := by
  refine ⟨by norm_num, ?_⟩
  rw [intel_dsb_reg_write_decode_roundtrip 0x70180 (by norm_num) [5, 6, 7] 16
    (by norm_num) (fun _ => 0xdeadbeef)]
  rfl

theorem intel_dsb_emit_inv (d : IntelDsb) (ldw udw : Nat) (h : DsbAlignedInv d) :
    DsbAlignedInv (intel_dsb_emit d ldw udw) := by
  obtain ⟨hins, hpad⟩ := h
  unfold intel_dsb_emit
  cases hb : assert_dsb_has_room d
  · simp only [Bool.not_false, if_true]
    exact ⟨hins, hpad⟩
  · simp only [Bool.not_true, Bool.false_eq_true, if_false]
    refine ⟨?_, ?_⟩
    · show kalign d.free_pos 2 % 2 = 0
      unfold kalign
      omega
    · intro hc
      exfalso
      revert hc
      show ¬(kalign d.free_pos 2 + 1 + 1) % 2 = 1
      unfold kalign
      omega

theorem dsb_pad_inv (d1 : IntelDsb) (hins : d1.ins_start_offset % 2 = 0) :
    DsbAlignedInv
      (if d1.free_pos &&& 0x1 != 0 then dsb_buffer_write d1 d1.free_pos 0 else d1) := by
  by_cases hp : (d1.free_pos &&& 0x1 != 0) = true
  · rw [if_pos hp]
    refine ⟨hins, fun _ => ?_⟩
    show (if d1.free_pos = d1.free_pos then 0 else d1.buf d1.free_pos) = 0
    simp
  · rw [if_neg hp]
    refine ⟨hins, fun hc => absurd ?_ hp⟩
    rw [Nat.and_one_is_mod, hc]
    decide

theorem intel_dsb_reg_write_inv (d : IntelDsb) (reg val : Nat) (h : DsbAlignedInv d) :
    DsbAlignedInv (intel_dsb_reg_write d reg val) := by
  have hins := h.1
  unfold intel_dsb_reg_write
  by_cases h1 : (!(intel_dsb_prev_ins_is_mmio_write d reg) &&
      !(intel_dsb_prev_ins_is_indexed_write d reg)) = true
  · rw [if_pos h1]
    exact intel_dsb_emit_inv d val _ h
  · rw [if_neg h1]
    cases hb : assert_dsb_has_room d
    · simp only [Bool.not_false, if_true]
      exact h
    · simp only [Bool.not_true, Bool.false_eq_true, if_false]
      cases hc : intel_dsb_prev_ins_is_mmio_write d reg
      · simp only [Bool.false_eq_true, if_false]
        exact dsb_pad_inv _ hins
      · simp only [if_true]
        exact dsb_pad_inv _ hins

theorem dsb_apply_op_inv (d : IntelDsb) (op : DsbOp) (h : DsbAlignedInv d) :
    DsbAlignedInv (dsb_apply_op d op) := by
  cases op with
  | emitOp ldw udw => exact intel_dsb_emit_inv d ldw udw h
  | regWriteOp reg val => exact intel_dsb_reg_write_inv d reg val h

theorem dsb_apply_ops_inv (ops : List DsbOp) :
    ∀ (d : IntelDsb), DsbAlignedInv d → DsbAlignedInv (dsb_apply_ops d ops) := by
  induction ops with
  | nil => intro d h; exact h
  | cons op ops ih =>
    intro d h
    exact ih (dsb_apply_op d op) (dsb_apply_op_inv d op h)

theorem intel_dsb_align_tail_spec (d : IntelDsb) :
    (intel_dsb_align_tail d).free_pos % 16 = 0 ∧
    (∀ i, i < (intel_dsb_align_tail d).free_pos → d.free_pos ≤ i →
      (intel_dsb_align_tail d).buf i = 0) := by
  simp only [intel_dsb_align_tail, dsb_buffer_memset0, CACHELINE_BYTES]
  by_cases hgt : kalign (d.free_pos * 4) 64 > d.free_pos * 4
  · rw [if_pos hgt]
    refine ⟨?_, ?_⟩
    · show kalign (d.free_pos * 4) 64 / 4 % 16 = 0
      unfold kalign
      omega
    · intro i hi hlo
      show (if d.free_pos ≤ i ∧
          i < d.free_pos + (kalign (d.free_pos * 4) 64 - d.free_pos * 4) / 4 then 0
        else d.buf i) = 0
      have hi' : i < kalign (d.free_pos * 4) 64 / 4 := hi
      rw [if_pos ?_]
      refine ⟨hlo, ?_⟩
      revert hi'
      unfold kalign
      omega
  · rw [if_neg hgt]
    have hk : kalign (d.free_pos * 4) 64 = d.free_pos * 4 := by
      have : d.free_pos * 4 ≤ kalign (d.free_pos * 4) 64 := by unfold kalign; omega
      omega
    refine ⟨?_, ?_⟩
    · show kalign (d.free_pos * 4) 64 / 4 % 16 = 0
      have h2 := hk
      unfold kalign at h2 ⊢
      omega
    · intro i hi hlo
      have hi' : i < kalign (d.free_pos * 4) 64 / 4 := hi
      rw [hk] at hi'
      omega

theorem process_flips_go_drains (fuel : Nat) :
    ∀ (st : FlipQueueState), st.list.length ≤ fuel →
      (∀ f ∈ st.list, f.ring = none) →
      intel_atomic_process_flips_go fuel st =
        { st with list := [], completed := st.completed ++ st.list } := by
  induction fuel with
  | zero =>
    intro st hlen hall
    obtain ⟨l, c, ir, w⟩ := st
    simp only at hlen hall ⊢
    have hnil : l = [] := List.eq_nil_of_length_eq_zero (by omega)
    subst hnil
    simp [intel_atomic_process_flips_go]
  | succ fuel ih =>
    intro st hlen hall
    obtain ⟨l, c, ir, w⟩ := st
    cases l with
    | nil => simp [intel_atomic_process_flips_go]
    | cons f tail =>
      simp only at hlen hall ⊢
      have hready : intel_atomic_flips_ready (f :: tail) f.flip_seq = true := by
        unfold intel_atomic_flips_ready
        rw [List.all_eq_true]
        intro g hg
        have hmem : g ∈ f :: tail := (List.takeWhile_sublist _).subset hg
        rw [hall g hmem]
        rfl
      have hgrp : (f :: tail).takeWhile (fun g => g.flip_seq == f.flip_seq) ++
          (f :: tail).dropWhile (fun g => g.flip_seq == f.flip_seq) = f :: tail :=
        List.takeWhile_append_dropWhile _ _
      have hrest_sub : (f :: tail).dropWhile (fun g => g.flip_seq == f.flip_seq) ⊆
          f :: tail := (List.dropWhile_sublist _).subset
      have hrest_len : ((f :: tail).dropWhile (fun g => g.flip_seq == f.flip_seq)).length
          ≤ fuel := by
        have h1 : (f :: tail).dropWhile (fun g => g.flip_seq == f.flip_seq) =
            tail.dropWhile (fun g => g.flip_seq == f.flip_seq) := by
          rw [List.dropWhile_cons, if_pos (by simp)]
        rw [h1]
        have h2 : (tail.dropWhile (fun g => g.flip_seq == f.flip_seq)).length ≤
            tail.length := (List.dropWhile_sublist _).length_le
        simp only [List.length_cons] at hlen
        omega
      show intel_atomic_process_flips_go (fuel + 1) ⟨f :: tail, c, ir, w⟩ = _
      unfold intel_atomic_process_flips_go
      simp only
      rw [if_pos hready]
      rw [ih _ hrest_len (fun g hg => hall g (hrest_sub hg))]
      simp only [intel_atomic_schedule_flips]
      rw [List.append_assoc, hgrp]

theorem map_id_of_eq {α : Type} (l : List α) (f : α → α) (h : ∀ x ∈ l, f x = x) :
    l.map f = l := by
  induction l with
  | nil => rfl
  | cons a l ih =>
    rw [List.map_cons, h a (by simp), ih (fun x hx => h x (by simp [hx]))]

theorem compute_crtcs_dirty_unchanged (d : Bool) (l : List IntelCrtcState)
    (h : ∀ st ∈ l, st.changed = false) : compute_crtcs_dirty d l = (d, l) := by
  induction l with
  | nil => rfl
  | cons st rest ih =>
    have h1 : crtc_compute_dirty d st = (d, st) := by
      unfold crtc_compute_dirty
      rw [h st (by simp)]
      simp
    unfold compute_crtcs_dirty
    rw [h1]
    dsimp only
    rw [ih (fun x hx => h x (by simp [hx]))]

theorem compute_planes_dirty_unchanged (d : Bool) (l : List IntelPlaneState)
    (h : ∀ p ∈ l, p.changed = false) : compute_planes_dirty d l = (d, l) := by
  induction l with
  | nil => rfl
  | cons p rest ih =>
    have h1 : plane_compute_dirty d p = (d, p) := by
      unfold plane_compute_dirty
      rw [h p (by simp)]
      simp
    unfold compute_planes_dirty
    rw [h1]
    dsimp only
    rw [ih (fun x hx => h x (by simp [hx]))]

/-! ## Claim theorems: no-change transactions are no-ops (C2) -/

/-- **C2**: in a transaction where no property was set on any object
(every per-object `changed` flag false), `check()` computes no dirty
flags (pipes and surfaces all stay clean, the global `dirty` flag
stays false) and returns success, and `commit()` performs no pinning
and no hardware programming — it only queues still-pending completion
events (none here) and returns success: its effect trace is empty. -/
theorem intel_atomic_no_change_noop (cext : CheckExt) (mext : CommitExt)
    (s : IntelAtomicState)
    (hc : ∀ st ∈ s.crtcs, st.changed = false ∧ st.event = false)
    (hp : ∀ p ∈ s.planes, p.changed = false ∧ p.event = false)
    (hd : s.dirty = false) :
    (intel_atomic_check cext s).2 = 0 ∧
    (intel_atomic_check cext s).1 = s ∧
    (intel_atomic_check cext s).1.dirty = false ∧
    (intel_atomic_commit mext (intel_atomic_check cext s).1).2.1 = [] ∧
    (intel_atomic_commit mext (intel_atomic_check cext s).1).2.2 = 0 := by
  have hchk : intel_atomic_check cext s = (s, 0) := by
    unfold intel_atomic_check
    rw [compute_crtcs_dirty_unchanged s.dirty s.crtcs (fun st hst => (hc st hst).1)]
    dsimp only
    rw [compute_planes_dirty_unchanged s.dirty s.planes (fun p hp' => (hp p hp').1)]
    simp [hd]
    rw [← hd]
  have halloc : alloc_flip_data s = s := by
    unfold alloc_flip_data
    rw [map_id_of_eq _ _ (fun st hst => by
        simp [alloc_crtc_flip_data, (hc st hst).1]),
      map_id_of_eq _ _ (fun p hp' => by
        simp [alloc_plane_flip_data, (hp p hp').1])]
  have hq : queue_remaining_events s = (({ s with
      crtcs := s.crtcs.map (fun st => { st with event := false })
      planes := s.planes.map (fun p => { p with event := false }) }), []) := by
    unfold queue_remaining_events
    rw [List.filter_eq_nil_iff.mpr (fun st hst => by rw [(hc st hst).2]; simp),
      List.filter_eq_nil_iff.mpr (fun p hp' => by rw [(hp p hp').2]; simp)]
    rfl
  have hcomm : intel_atomic_commit mext s =
      (({ s with
        crtcs := s.crtcs.map (fun st => { st with event := false })
        planes := s.planes.map (fun p => { p with event := false }) }), [], 0) := by
    unfold intel_atomic_commit
    rw [halloc]
    dsimp only
    rw [hq]
    simp [hd]
  rw [hchk]
  exact ⟨rfl, rfl, hd, by rw [hcomm], by rw [hcomm]⟩

/-! ## Claim theorems: device reset force-completes pending flips (C5) -/

/-- **C5**: when the GPU is wedged while flip descriptors are pending
on the driver-wide flip list, every waiting descriptor's fence is
abandoned — its ring reference is cleared and one ring irq reference
is released per waiting descriptor, in queue order — the flip work is
queued whenever anything is pending, and that work then
force-completes every pending flip in its original enqueue order,
leaving the pending list empty when the handling finishes. -/
theorem intel_atomic_wedged_force_completes (st : FlipQueueState) :
    (intel_atomic_wedged st).irq_puts =
      st.irq_puts ++ st.list.filterMap (fun f => f.ring) ∧
    (∀ f ∈ (intel_atomic_wedged st).list, f.ring = none) ∧
    (intel_atomic_wedged st).work_queued = (st.work_queued || !st.list.isEmpty) ∧
    (intel_atomic_process_flips_work (intel_atomic_wedged st)).list = [] ∧
    (intel_atomic_process_flips_work (intel_atomic_wedged st)).completed =
      st.completed ++ st.list.map (fun f => { f with ring := none }) := by
  have hall : ∀ f ∈ (intel_atomic_wedged st).list, f.ring = none := by
    intro f hf
    simp only [intel_atomic_wedged, List.mem_map] at hf
    obtain ⟨g, _, rfl⟩ := hf
    rfl
  have hdrain := process_flips_go_drains (intel_atomic_wedged st).list.length
    (intel_atomic_wedged st) (le_refl _) hall
  refine ⟨rfl, hall, rfl, ?_, ?_⟩
  · unfold intel_atomic_process_flips_work
    rw [hdrain]
  · unfold intel_atomic_process_flips_work
    rw [hdrain]
    rfl

/-! ## Claim theorems: whole, aligned instructions (C9) -/

/-- **C9**: every write into the command buffer is emitted as a whole
2-dword (8-byte-aligned) instruction: across any sequence of
`intel_dsb_emit` / `intel_dsb_reg_write` operations the instruction
start offset stays 2-dword aligned (the emitter realigns the write
cursor before emitting a new instruction), an indexed write with an
odd number of data dwords keeps a trailing zero dword at the write
cursor (the pad), and `intel_dsb_align_tail` (run by
`intel_dsb_finish`) aligns the tail to a full 64-byte cacheline (16
dwords) with zero fill. -/
theorem intel_dsb_whole_instructions (d0 : IntelDsb) (ops : List DsbOp)
    (h0 : DsbAlignedInv d0) :
    DsbAlignedInv (dsb_apply_ops d0 ops) ∧
    (intel_dsb_align_tail (dsb_apply_ops d0 ops)).free_pos % 16 = 0 ∧
    (∀ i, i < (intel_dsb_align_tail (dsb_apply_ops d0 ops)).free_pos →
      (dsb_apply_ops d0 ops).free_pos ≤ i →
      (intel_dsb_align_tail (dsb_apply_ops d0 ops)).buf i = 0) :=
  ⟨dsb_apply_ops_inv ops d0 h0,
   (intel_dsb_align_tail_spec _).1,
   fun i hi hlo => (intel_dsb_align_tail_spec _).2 i hi hlo⟩

/-- Witness for C9: merged writes plus a wait op on a fresh buffer. -/
theorem intel_dsb_whole_instructions_witness :
    DsbAlignedInv wD0 ∧ DsbAlignedInv (dsb_apply_ops wD0 wOps) ∧
    (intel_dsb_align_tail (dsb_apply_ops wD0 wOps)).free_pos % 16 = 0 :=
  ⟨⟨by decide, fun h => absurd h (by decide)⟩,
   (intel_dsb_whole_instructions wD0 wOps
     ⟨by decide, fun h => absurd h (by decide)⟩).1,
   (intel_dsb_whole_instructions wD0 wOps
     ⟨by decide, fun h => absurd h (by decide)⟩).2.1⟩

/-! ## Claim theorems: DSB scanline translation (C8) -/

/-- **C8**: the hardware-relative translation
`(S + vtotal - offset) % vtotal` computed by `dsb_scanline_to_hw` is
invertible: adding the per-pipeline scanline offset back, modulo the
same total, recovers `S` modulo the total number of lines; the total is
the VRR maximum (`vrr.vmax`) when variable refresh is active for the
pipeline and the mode's total lines otherwise, and the statement covers
both cases through `dsb_vtotal`. -/
theorem dsb_scanline_to_hw_roundtrip (c : PreCommitCtx) (S : Int)
    (hvt : 0 < dsb_vtotal c) (hS : 0 ≤ S)
    (hoff0 : 0 ≤ (pre_commit_crtc_state c).scanline_offset)
    (hoff : (pre_commit_crtc_state c).scanline_offset ≤ dsb_vtotal c) :
    dsb_hw_to_scanline c (dsb_scanline_to_hw c S) = S % dsb_vtotal c := by
  unfold dsb_hw_to_scanline dsb_scanline_to_hw
  set vt := dsb_vtotal c with hvtdef
  set off := (pre_commit_crtc_state c).scanline_offset with hoffdef
  have h1 : 0 ≤ S + vt - off := by omega
  rw [Int.tmod_eq_emod h1 (le_of_lt hvt)]
  have hmod : 0 ≤ (S + vt - off) % vt := Int.emod_nonneg _ (by omega)
  have h2 : 0 ≤ (S + vt - off) % vt + off := by omega
  rw [Int.tmod_eq_emod h2 (le_of_lt hvt)]
  rw [Int.emod_add_emod]
  have h3 : S + vt - off + off = S + vt * 1 := by ring
  rw [h3, Int.add_mul_emod_self_left]

/-- Witness for C8 at a 1920×1080 timing: 1125 total lines, scanline
offset 1, logical scanline 2000. -/
theorem dsb_scanline_to_hw_roundtrip_witness :
    0 < dsb_vtotal w8 ∧
    dsb_hw_to_scanline w8 (dsb_scanline_to_hw w8 2000) = 2000 % dsb_vtotal w8 := by
  refine ⟨by decide, dsb_scanline_to_hw_roundtrip w8 2000 (by decide) (by decide)
    (by decide) (by decide)⟩

/-! ## Claim theorems: flip target and completion (C4) -/

/-- **C4**: arming a flip with no fence dependency on an active pipe
sets the descriptor's target vblank count to the sampled frame counter
plus exactly one (masked to 24 bits on the old counting style); the
descriptor is deemed flipped (`intel_vbl_check`) exactly when the
current counter is at-or-after the target under the wraparound-safe
comparison (sign bit of the 32-bit difference for the new style, bit 23
of the 24-bit difference for the old style); it is not yet flipped at
the arming frame and is flipped at the very next frame, so the
completion frame-count delta relative to the commit is exactly 1. -/
theorem intel_flip_flip_target_next_vblank (new_frmcount : Bool) (f : IntelFlip)
    (vbl : Nat) (_hv : vbl < 2 ^ 32) (hv24 : new_frmcount = false → vbl < 2 ^ 24) :
    ((intel_flip_flip new_frmcount f none vbl).1.vbl_count =
      if new_frmcount then (vbl + 1) % 2 ^ 32 else (vbl + 1) &&& 0xffffff)
    ∧ intel_vbl_check new_frmcount
        (intel_flip_flip new_frmcount f none vbl).1.vbl_count vbl = false
    ∧ intel_vbl_check new_frmcount
        (intel_flip_flip new_frmcount f none vbl).1.vbl_count
        (intel_flip_flip new_frmcount f none vbl).1.vbl_count = true
    ∧ (∀ cur, cur < 2 ^ 32 →
        (intel_vbl_check new_frmcount
            (intel_flip_flip new_frmcount f none vbl).1.vbl_count cur = true ↔
          (if new_frmcount then
            usub32 cur (intel_flip_flip new_frmcount f none vbl).1.vbl_count < 2 ^ 31
          else
            usub32 cur (intel_flip_flip new_frmcount f none vbl).1.vbl_count
              % 2 ^ 24 < 2 ^ 23))) := by
  cases new_frmcount with
  | true =>
    have e1 : (intel_flip_flip true f none vbl).1.vbl_count = (vbl + 1) % 2 ^ 32 := rfl
    refine ⟨e1, ?_, ?_, ?_⟩
    · rw [e1]
      show vbl_count_after_eq_new vbl ((vbl + 1) % 2 ^ 32) = false
      unfold vbl_count_after_eq_new
      have e2 : usub32 vbl ((vbl + 1) % 2 ^ 32) = 2 ^ 32 - 1 := by
        unfold usub32; omega
      rw [e2]; decide
    · rw [e1]
      show vbl_count_after_eq_new ((vbl + 1) % 2 ^ 32) ((vbl + 1) % 2 ^ 32) = true
      unfold vbl_count_after_eq_new
      have e2 : usub32 ((vbl + 1) % 2 ^ 32) ((vbl + 1) % 2 ^ 32) = 0 := by
        unfold usub32; omega
      rw [e2]; decide
    · intro cur _
      rw [e1]
      show vbl_count_after_eq_new cur ((vbl + 1) % 2 ^ 32) = true ↔
        usub32 cur ((vbl + 1) % 2 ^ 32) < 2 ^ 31
      unfold vbl_count_after_eq_new
      rw [beq_iff_eq]
      have hlt : usub32 cur ((vbl + 1) % 2 ^ 32) < 2 ^ 32 := by
        unfold usub32; omega
      exact and_bit31_iff _ hlt
  | false =>
    have hv' : vbl < 2 ^ 24 := hv24 rfl
    have e0 : (vbl + 1) &&& 0xffffff = (vbl + 1) % 2 ^ 24 := and_mask24 _
    have e1 : (intel_flip_flip false f none vbl).1.vbl_count = (vbl + 1) &&& 0xffffff :=
      rfl
    refine ⟨e1, ?_, ?_, ?_⟩
    · rw [e1, e0]
      show vbl_count_after_eq vbl ((vbl + 1) % 2 ^ 24) = false
      unfold vbl_count_after_eq
      have h1 : usub32 vbl ((vbl + 1) % 2 ^ 24) % 2 ^ 24 = 2 ^ 24 - 1 := by
        unfold usub32; omega
      rw [Bool.eq_false_iff]
      intro hc
      rw [beq_iff_eq, and_bit23_iff] at hc
      omega
    · rw [e1, e0]
      show vbl_count_after_eq ((vbl + 1) % 2 ^ 24) ((vbl + 1) % 2 ^ 24) = true
      unfold vbl_count_after_eq
      have e2 : usub32 ((vbl + 1) % 2 ^ 24) ((vbl + 1) % 2 ^ 24) = 0 := by
        unfold usub32; omega
      rw [e2]; decide
    · intro cur _
      rw [e1, e0]
      show vbl_count_after_eq cur ((vbl + 1) % 2 ^ 24) = true ↔
        usub32 cur ((vbl + 1) % 2 ^ 24) % 2 ^ 24 < 2 ^ 23
      unfold vbl_count_after_eq
      rw [beq_iff_eq]
      exact and_bit23_iff _

/-- Witness for C4: both counter styles at frame 1124. -/
theorem intel_flip_flip_target_next_vblank_witness :
    (1124 : Nat) < 2 ^ 32 ∧
    intel_vbl_check true
      (intel_flip_flip true wFlip none 1124).1.vbl_count 1124 = false ∧
    intel_vbl_check false
      (intel_flip_flip false wFlip none 1124).1.vbl_count 1125 = true := by
  refine ⟨by norm_num, ?_, ?_⟩
  · exact (intel_flip_flip_target_next_vblank true wFlip 1124 (by norm_num)
      (by intro h; cases h)).2.1
  · have h := (intel_flip_flip_target_next_vblank false wFlip 1124 (by norm_num)
      (by intro _; norm_num)).2.2.2 1125 (by norm_num)
    have e : (intel_flip_flip false wFlip none 1124).1.vbl_count = 1125 := by decide
    rw [e] at h ⊢
    rw [h]
    decide

/-! ## Claim theorems: old-buffer swap with a pending flip (C10) -/

/-- **C10**: when a new flip is armed while the previous flip on the
same pipe/plane is still pending, the wraparound-safe counter
comparison decides whether the pending flip already latched; if it did
not, the two descriptors swap their old-buffer bookkeeping (old
framebuffer id, old buffer object, old cursor object), so the buffer
still being scanned out stays with the descriptor that completes
later; if it did latch, nothing is swapped.  `intel_flip_finish`
releases exactly a descriptor's (post-swap) `old_bo` and
`old_cursor_bo`. -/
theorem intel_flip_flip_pending_swap (new_frmcount : Bool)
    (f p : IntelFlip) (vbl : Nat) :
    ((intel_flip_flip new_frmcount f (some p) vbl).2.2 =
       intel_vbl_check new_frmcount p.vbl_count vbl)
    ∧ ((intel_flip_flip new_frmcount f (some p) vbl).1.old_bo =
        if intel_vbl_check new_frmcount p.vbl_count vbl then f.old_bo else p.old_bo)
    ∧ ((intel_flip_flip new_frmcount f (some p) vbl).1.old_fb_id =
        if intel_vbl_check new_frmcount p.vbl_count vbl then f.old_fb_id else p.old_fb_id)
    ∧ ((intel_flip_flip new_frmcount f (some p) vbl).1.old_cursor_bo =
        if intel_vbl_check new_frmcount p.vbl_count vbl then f.old_cursor_bo
        else p.old_cursor_bo)
    ∧ ((intel_flip_flip new_frmcount f (some p) vbl).2.1 =
        some (if intel_vbl_check new_frmcount p.vbl_count vbl then p
          else { p with old_fb_id := f.old_fb_id, old_bo := f.old_bo,
                        old_cursor_bo := f.old_cursor_bo }))
    ∧ (intel_flip_finish (intel_flip_flip new_frmcount f (some p) vbl).1 =
        intel_flip_finish
          (if intel_vbl_check new_frmcount p.vbl_count vbl then f
           else { f with old_bo := p.old_bo, old_cursor_bo := p.old_cursor_bo })) := by
  cases hc : intel_vbl_check new_frmcount p.vbl_count vbl <;>
    simp [intel_flip_flip, hc, intel_flip_finish]

/-- Witness for C2 at a concrete one-pipe, one-plane transaction with
no properties set. -/
theorem intel_atomic_no_change_noop_witness :
    (intel_atomic_check wCheckExt wC2State).2 = 0 ∧
    (intel_atomic_check wCheckExt wC2State).1 = wC2State ∧
    (intel_atomic_check wCheckExt wC2State).1.dirty = false ∧
    (intel_atomic_commit wCommitExt (intel_atomic_check wCheckExt wC2State).1).2.1 = [] ∧
    (intel_atomic_commit wCommitExt (intel_atomic_check wCheckExt wC2State).1).2.2 = 0 :=
  intel_atomic_no_change_noop wCheckExt wCommitExt wC2State
    (by decide) (by decide) rfl

/-! ## Claim theorems: nonblocking modeset rejection (C1) -/

theorem crtc_compute_dirty_latch (d : Bool) (st : IntelCrtcState)
    (hfr : st.mode_dirty = false)
    (h : (crtc_compute_dirty d st).2.mode_dirty = true) :
    (crtc_compute_dirty d st).1 = true := by
  unfold crtc_compute_dirty at h ⊢
  by_cases hc : (!st.changed) = true
  · rw [if_pos hc] at h
    dsimp only at h
    rw [hfr] at h
    exact absurd h (by decide)
  · rw [if_neg hc] at h ⊢
    dsimp only at h ⊢
    rw [h]
    simp

theorem crtc_compute_dirty_mono (st : IntelCrtcState) :
    (crtc_compute_dirty true st).1 = true := by
  unfold crtc_compute_dirty
  by_cases hc : (!st.changed) = true
  · rw [if_pos hc]
  · rw [if_neg hc]
    dsimp only
    simp

theorem plane_compute_dirty_mono (p : IntelPlaneState) :
    (plane_compute_dirty true p).1 = true := by
  unfold plane_compute_dirty
  by_cases hc : (!p.changed) = true
  · rw [if_pos hc]
  · rw [if_neg hc]
    dsimp only
    simp

theorem compute_crtcs_dirty_cons (d : Bool) (st : IntelCrtcState)
    (rest : List IntelCrtcState) :
    compute_crtcs_dirty d (st :: rest) =
      ((compute_crtcs_dirty (crtc_compute_dirty d st).1 rest).1,
       (crtc_compute_dirty d st).2 ::
         (compute_crtcs_dirty (crtc_compute_dirty d st).1 rest).2) := rfl

theorem compute_planes_dirty_cons (d : Bool) (p : IntelPlaneState)
    (rest : List IntelPlaneState) :
    compute_planes_dirty d (p :: rest) =
      ((compute_planes_dirty (plane_compute_dirty d p).1 rest).1,
       (plane_compute_dirty d p).2 ::
         (compute_planes_dirty (plane_compute_dirty d p).1 rest).2) := rfl

theorem compute_crtcs_dirty_mono (l : List IntelCrtcState) :
    (compute_crtcs_dirty true l).1 = true := by
  induction l with
  | nil => rfl
  | cons st rest ih =>
    rw [compute_crtcs_dirty_cons, crtc_compute_dirty_mono st]
    exact ih

theorem compute_planes_dirty_mono (l : List IntelPlaneState) :
    (compute_planes_dirty true l).1 = true := by
  induction l with
  | nil => rfl
  | cons p rest ih =>
    rw [compute_planes_dirty_cons, plane_compute_dirty_mono p]
    exact ih

theorem compute_crtcs_dirty_mode_latch (l : List IntelCrtcState) :
    ∀ d : Bool, (∀ st ∈ l, st.mode_dirty = false) →
    ∀ st' ∈ (compute_crtcs_dirty d l).2, st'.mode_dirty = true →
    (compute_crtcs_dirty d l).1 = true := by
  induction l with
  | nil =>
    intro d _ st' hmem _
    simp [compute_crtcs_dirty] at hmem
  | cons st rest ih =>
    intro d hfr st' hmem hm
    rw [compute_crtcs_dirty_cons] at hmem ⊢
    dsimp only at hmem ⊢
    rcases List.mem_cons.mp hmem with h | h
    · rw [crtc_compute_dirty_latch d st (hfr st (by simp)) (h ▸ hm)]
      exact compute_crtcs_dirty_mono rest
    · exact ih (crtc_compute_dirty d st).1 (fun x hx => hfr x (by simp [hx])) st' h hm

theorem check_crtcs_loop_eagain (ext : CheckExt) (pre : List IntelCrtcState) :
    ∀ (planes : List IntelPlaneState) (stm : IntelCrtcState)
      (post : List IntelCrtcState),
    (∀ st ∈ pre, st.mode_dirty = false ∧ check_crtc ext st = 0) →
    stm.mode_dirty = true →
    (check_crtcs_loop ext true (pre ++ stm :: post) planes).2 = -EAGAIN := by
  induction pre with
  | nil =>
    intro planes stm post _ hm
    rw [List.nil_append]
    unfold check_crtcs_loop
    rw [hm]
    simp
  | cons a pre ih =>
    intro planes stm post hok hm
    have ham := (hok a (by simp)).1
    have hac := (hok a (by simp)).2
    rw [List.cons_append]
    unfold check_crtcs_loop
    by_cases hs : (!a.fb_dirty && !a.mode_dirty && !a.cursor_dirty) = true
    · rw [if_pos hs]
      exact ih planes stm post (fun x hx => hok x (by simp [hx])) hm
    · rw [if_neg hs, ham, hac]
      simp only [Bool.false_and, Bool.false_eq_true, if_false, bne_self_eq_false,
        Bool.false_eq_true, ite_false]
      exact ih _ stm post (fun x hx => hok x (by simp [hx])) hm

/-- **C1** (counterexample): a non-blocking transaction in which a
pipeline *is* marked mode-dirty by the check phase, yet `check()`
returns `-EINVAL`, not `-EAGAIN` — the per-pipe loop validates the
pipes in order and an invalid fb-dirty pipe scanned before the
mode-dirty one fails `check_crtc` first.  So "check() marks any pipe
mode-dirty + NONBLOCK" does not by itself force `-EAGAIN`. -/
theorem intel_atomic_check_nonblock_counterexample :
    w1BadState.flags.nonblock = true ∧
    ((compute_crtcs_dirty w1BadState.dirty w1BadState.crtcs).2.any
      (fun st => st.mode_dirty)) = true ∧
    (intel_atomic_check wCheckExt w1BadState).2 = -EINVAL ∧
    ¬ (intel_atomic_check wCheckExt w1BadState).2 = -EAGAIN := by
  refine ⟨rfl, by decide, by decide, by decide⟩

/-- **C1** (amended): in a non-blocking transaction, if the check
phase marks some pipeline mode-dirty and every dirty pipeline scanned
before it is not mode-dirty and passes per-pipe validation, then
`check()` returns `-EAGAIN` (before validating the mode-dirty
pipeline), so the caller can retry as a blocking transaction;
`commit()` is never reached, hence no hardware is touched. -/
theorem intel_atomic_check_nonblock_eagain (ext : CheckExt)
    (s : IntelAtomicState) (pre post : List IntelCrtcState)
    (stm : IntelCrtcState)
    (hfresh : ∀ st ∈ s.crtcs, st.mode_dirty = false)
    (hnb : s.flags.nonblock = true)
    (hsplit : (compute_crtcs_dirty s.dirty s.crtcs).2 = pre ++ stm :: post)
    (hm : stm.mode_dirty = true)
    (hpre : ∀ st ∈ pre, st.mode_dirty = false ∧ check_crtc ext st = 0) :
    (intel_atomic_check ext s).2 = -EAGAIN := by
  have hd1 : (compute_crtcs_dirty s.dirty s.crtcs).1 = true :=
    compute_crtcs_dirty_mode_latch s.crtcs s.dirty hfresh stm
      (by rw [hsplit]; simp) hm
  have hpair1 : compute_crtcs_dirty s.dirty s.crtcs = (true, pre ++ stm :: post) :=
    Prod.ext hd1 hsplit
  have hpair2 : compute_planes_dirty true s.planes =
      (true, (compute_planes_dirty true s.planes).2) :=
    Prod.ext (compute_planes_dirty_mono s.planes) rfl
  have hl : (check_crtcs_loop ext true (pre ++ stm :: post)
      (compute_planes_dirty true s.planes).2).2 = -EAGAIN :=
    check_crtcs_loop_eagain ext pre _ stm post hpre hm
  have hpair3 : check_crtcs_loop ext true (pre ++ stm :: post)
      (compute_planes_dirty true s.planes).2 =
      ((check_crtcs_loop ext true (pre ++ stm :: post)
        (compute_planes_dirty true s.planes).2).1, -EAGAIN) :=
    Prod.ext rfl hl
  unfold intel_atomic_check
  rw [hpair1]
  dsimp only
  rw [hpair2]
  dsimp only
  rw [if_neg (by decide), hnb, hpair3]
  dsimp only
  rw [if_pos (by decide)]

/-- Witness for the amended C1 theorem: a valid fb change on pipe 1
followed by a mode change on pipe 2, committed non-blocking. -/
theorem intel_atomic_check_nonblock_eagain_witness :
    (intel_atomic_check wCheckExt w1State).2 = -EAGAIN :=
  intel_atomic_check_nonblock_eagain wCheckExt w1State
    [{ w1crtcA with fb_dirty := true }] []
    { w1crtcB with mode_dirty := true, active_dirty := true }
    (by decide) rfl (by decide) (by decide) (by decide)

/-! ## Claim theorems: conflicting resource claims (C6) -/

theorem check_conflicts_overlap (l1 : List IntelCrtcState) :
    ∀ (sta : IntelCrtcState) (l2 : List IntelCrtcState)
      (stb : IntelCrtcState) (l3 : List IntelCrtcState),
    (sta.connectors_bitmask &&& stb.connectors_bitmask != 0 ||
     sta.encoders_bitmask &&& stb.encoders_bitmask != 0) = true →
    check_conflicts (l1 ++ sta :: (l2 ++ stb :: l3)) = -EINVAL := by
  induction l1 with
  | nil =>
    intro sta l2 stb l3 hov
    rw [List.nil_append]
    unfold check_conflicts
    rw [if_pos (List.any_eq_true.mpr ⟨stb, by simp, hov⟩)]
  | cons a l1 ih =>
    intro sta l2 stb l3 hov
    rw [List.cons_append]
    unfold check_conflicts
    by_cases ha : ((l1 ++ sta :: (l2 ++ stb :: l3)).any (fun st2 =>
        a.connectors_bitmask &&& st2.connectors_bitmask != 0 ||
        a.encoders_bitmask &&& st2.encoders_bitmask != 0)) = true
    · rw [if_pos ha]
    · rw [if_neg ha]
      exact ih sta l2 stb l3 hov

theorem check_crtcs_loop_ok (ext : CheckExt) (nb : Bool)
    (l : List IntelCrtcState) :
    ∀ planes : List IntelPlaneState,
    (∀ st ∈ l, (st.fb_dirty || st.mode_dirty || st.cursor_dirty) = true →
      (st.mode_dirty && nb) = false ∧ check_crtc ext st = 0) →
    (check_crtcs_loop ext nb l planes).2 = 0 := by
  induction l with
  | nil => intro planes _; rfl
  | cons a rest ih =>
    intro planes h
    unfold check_crtcs_loop
    by_cases hs : (!a.fb_dirty && !a.mode_dirty && !a.cursor_dirty) = true
    · rw [if_pos hs]
      exact ih planes (fun x hx => h x (by simp [hx]))
    · rw [if_neg hs]
      have hdirty : (a.fb_dirty || a.mode_dirty || a.cursor_dirty) = true := by
        revert hs
        cases a.fb_dirty <;> cases a.mode_dirty <;> cases a.cursor_dirty <;> simp
      obtain ⟨hmn, hc0⟩ := h a (by simp) hdirty
      rw [if_neg (by rw [hmn]; decide), hc0]
      dsimp only
      rw [if_neg (by decide)]
      exact ih _ (fun x hx => h x (by simp [hx]))

/-- **C6**: the check phase rejects conflicting resource claims.  If
two pipelines of the transaction claim overlapping connector or
encoder bitmasks — and the transaction is otherwise dirty and every
dirty pipe passes per-pipe validation without hitting the non-blocking
modeset rejection — `check()` returns `-EINVAL`; and whenever the
staged scaling requests outnumber a pipe's scalers,
`intel_atomic_setup_scalers` fails with `-EINVAL` before allocating
anything. -/
theorem intel_atomic_check_conflicts_scalers (ext : CheckExt)
    (s : IntelAtomicState) (l1 l2 l3 : List IntelCrtcState)
    (sta stb : IntelCrtcState) (users num : Nat)
    (hsplit : (compute_crtcs_dirty s.dirty s.crtcs).2 =
      l1 ++ sta :: (l2 ++ stb :: l3))
    (hov : (sta.connectors_bitmask &&& stb.connectors_bitmask != 0 ||
            sta.encoders_bitmask &&& stb.encoders_bitmask != 0) = true)
    (hdirty : (compute_planes_dirty (compute_crtcs_dirty s.dirty s.crtcs).1
      s.planes).1 = true)
    (hloop : ∀ st ∈ (compute_crtcs_dirty s.dirty s.crtcs).2,
      (st.fb_dirty || st.mode_dirty || st.cursor_dirty) = true →
      (st.mode_dirty && s.flags.nonblock) = false ∧ check_crtc ext st = 0)
    (hsc : hweight32 users > num) :
    (intel_atomic_check ext s).2 = -EINVAL ∧
    intel_atomic_setup_scalers users num = (-EINVAL, false) := by
  rw [hsplit] at hloop
  constructor
  · have hpair1 : compute_crtcs_dirty s.dirty s.crtcs =
        ((compute_crtcs_dirty s.dirty s.crtcs).1, l1 ++ sta :: (l2 ++ stb :: l3)) :=
      Prod.ext rfl hsplit
    have hpair2 : compute_planes_dirty (compute_crtcs_dirty s.dirty s.crtcs).1
        s.planes =
        (true, (compute_planes_dirty (compute_crtcs_dirty s.dirty s.crtcs).1
          s.planes).2) :=
      Prod.ext hdirty rfl
    have hl : (check_crtcs_loop ext s.flags.nonblock
        (l1 ++ sta :: (l2 ++ stb :: l3))
        (compute_planes_dirty (compute_crtcs_dirty s.dirty s.crtcs).1
          s.planes).2).2 = 0 :=
      check_crtcs_loop_ok ext s.flags.nonblock _ _ hloop
    have hpair3 : check_crtcs_loop ext s.flags.nonblock
        (l1 ++ sta :: (l2 ++ stb :: l3))
        (compute_planes_dirty (compute_crtcs_dirty s.dirty s.crtcs).1
          s.planes).2 =
        ((check_crtcs_loop ext s.flags.nonblock
          (l1 ++ sta :: (l2 ++ stb :: l3))
          (compute_planes_dirty (compute_crtcs_dirty s.dirty s.crtcs).1
            s.planes).2).1, 0) :=
      Prod.ext rfl hl
    unfold intel_atomic_check
    rw [hpair1]
    dsimp only
    rw [hpair2]
    dsimp only
    rw [if_neg (by decide), hpair3]
    dsimp only
    rw [if_neg (by decide)]
    rw [check_conflicts_overlap l1 sta l2 stb l3 hov]
    rw [if_pos (by decide)]
  · unfold intel_atomic_setup_scalers
    dsimp only
    rw [if_pos hsc]

/-- Witness for C6: a cursor move on pipe 1 whose connector bitmask
overlaps untouched pipe 2's, plus a 3-user request against 2 scalers. -/
theorem intel_atomic_check_conflicts_scalers_witness :
    (intel_atomic_check wCheckExt w6State).2 = -EINVAL ∧
    intel_atomic_setup_scalers 7 2 = (-EINVAL, false) :=
  intel_atomic_check_conflicts_scalers wCheckExt w6State [] [] []
    { w6crtcA with cursor_dirty := true } w6crtcB 7 2
    (by decide) (by decide) (by decide) (by decide) (by decide)

/-! ## Claim theorems: blocking-commit failure unwind (C3) -/

theorem alloc_crtc_flip_data_eq (ev : Bool) (st : IntelCrtcState) :
    alloc_crtc_flip_data ev st =
      { st with event := st.event || (st.changed && ev) } := by
  unfold alloc_crtc_flip_data
  by_cases h : (st.changed && ev) = true
  · rw [if_pos h, h, Bool.or_true]
  · have h2 : (st.changed && ev) = false := by
      revert h
      cases (st.changed && ev) <;> simp
    rw [if_neg h, h2, Bool.or_false]

theorem alloc_plane_flip_data_eq (ev : Bool) (p : IntelPlaneState) :
    alloc_plane_flip_data ev p =
      { p with event := p.event || (p.changed && ev) } := by
  unfold alloc_plane_flip_data
  by_cases h : (p.changed && ev) = true
  · rw [if_pos h, h, Bool.or_true]
  · have h2 : (p.changed && ev) = false := by
      revert h
      cases (p.changed && ev) <;> simp
    rw [if_neg h, h2, Bool.or_false]

theorem commit_fc_eq (st : IntelCrtcState) :
    commit_fc st = { st with pinned := st.pinned || commit_pc st } := by
  unfold commit_fc
  by_cases h : commit_pc st = true
  · rw [if_pos h, h, Bool.or_true]
  · have h2 : commit_pc st = false := by
      revert h
      cases commit_pc st <;> simp
    rw [if_neg h, h2, Bool.or_false]

theorem commit_fp_eq (p : IntelPlaneState) :
    commit_fp p = { p with pinned := p.pinned || commit_pp p } := by
  unfold commit_fp
  by_cases h : commit_pp p = true
  · rw [if_pos h, h, Bool.or_true]
  · have h2 : commit_pp p = false := by
      revert h
      cases commit_pp p <;> simp
    rw [if_neg h, h2, Bool.or_false]

theorem commit_fcur_eq (st : IntelCrtcState) :
    commit_fcur st = { st with cursor_pinned := st.cursor_pinned || commit_pcur st } := by
  unfold commit_fcur
  by_cases h : commit_pcur st = true
  · rw [if_pos h, h, Bool.or_true]
  · have h2 : commit_pcur st = false := by
      revert h
      cases commit_pcur st <;> simp
    rw [if_neg h, h2, Bool.or_false]

theorem filter_map_transport {α β : Type} (f : α → α) (p q : α → Bool)
    (g h : α → β) (l : List α)
    (hp : ∀ a ∈ l, p (f a) = q a) (hg : ∀ a ∈ l, g (f a) = h a) :
    ((l.map f).filter p).map g = (l.filter q).map h := by
  induction l with
  | nil => rfl
  | cons a l ih =>
    have ih' := ih (fun x hx => hp x (by simp [hx])) (fun x hx => hg x (by simp [hx]))
    by_cases hq : q a = true
    · rw [List.map_cons, List.filter_cons, List.filter_cons, hp a (by simp),
        if_pos hq, if_pos hq, List.map_cons, List.map_cons, hg a (by simp), ih']
    · rw [List.map_cons, List.filter_cons, List.filter_cons, hp a (by simp),
        if_neg hq, if_neg hq, ih']

theorem pin_crtc_fbs_loop_success (ext : CommitExt)
    (hpc : ∀ i, ext.pin_crtc_fb i = 0) :
    ∀ l : List IntelCrtcState,
    pin_crtc_fbs_loop ext l =
      (l.map commit_fc,
       (l.filter commit_pc).map (fun st => CommitEff.pinCrtcFb st.crtc.id),
       0) := by
  intro l
  induction l with
  | nil => rfl
  | cons st rest ih =>
    unfold pin_crtc_fbs_loop
    by_cases hc : commit_pc st = true
    · have hskip : ¬((!st.fb_dirty || st.crtc.fb == none) = true) := by
        revert hc
        unfold commit_pc
        cases st.fb_dirty <;> cases st.crtc.fb <;> simp
      rw [if_neg hskip, hpc st.crtc.id]
      dsimp only
      rw [if_neg (by decide), ih]
      dsimp only
      rw [List.map_cons, List.filter_cons, if_pos hc, List.map_cons,
        show commit_fc st = { st with pinned := true } from by
          unfold commit_fc; rw [if_pos hc]]
    · have hskip : (!st.fb_dirty || st.crtc.fb == none) = true := by
        revert hc
        unfold commit_pc
        cases st.fb_dirty <;> cases st.crtc.fb <;> simp
      rw [if_pos hskip, ih]
      dsimp only
      rw [List.map_cons, List.filter_cons, if_neg hc,
        show commit_fc st = st from by
          unfold commit_fc; rw [if_neg hc]]

theorem pin_plane_fbs_loop_success (ext : CommitExt)
    (hpp : ∀ i, ext.pin_plane_fb i = 0) :
    ∀ l : List IntelPlaneState,
    pin_plane_fbs_loop ext l =
      (l.map commit_fp,
       (l.filter commit_pp).map (fun p => CommitEff.pinPlaneFb p.plane.id),
       0) := by
  intro l
  induction l with
  | nil => rfl
  | cons p rest ih =>
    unfold pin_plane_fbs_loop
    by_cases hc : commit_pp p = true
    · have hskip : ¬((!p.dirty || p.plane.fb == none) = true) := by
        revert hc
        unfold commit_pp
        cases p.dirty <;> cases p.plane.fb <;> simp
      rw [if_neg hskip, hpp p.plane.id]
      dsimp only
      rw [if_neg (by decide), ih]
      dsimp only
      rw [List.map_cons, List.filter_cons, if_pos hc, List.map_cons,
        show commit_fp p = { p with pinned := true } from by
          unfold commit_fp; rw [if_pos hc]]
    · have hskip : (!p.dirty || p.plane.fb == none) = true := by
        revert hc
        unfold commit_pp
        cases p.dirty <;> cases p.plane.fb <;> simp
      rw [if_pos hskip, ih]
      dsimp only
      rw [List.map_cons, List.filter_cons, if_neg hc,
        show commit_fp p = p from by
          unfold commit_fp; rw [if_neg hc]]

theorem pin_cursors_loop_success (ext : CommitExt)
    (hpcur : ∀ i, ext.pin_cursor i = 0) :
    ∀ l : List IntelCrtcState,
    pin_cursors_loop ext l =
      (l.map commit_fcur,
       (l.filter commit_pcur).map (fun st => CommitEff.pinCursor st.crtc.id),
       0) := by
  intro l
  induction l with
  | nil => rfl
  | cons st rest ih =>
    unfold pin_cursors_loop
    by_cases hd : st.cursor_dirty = true
    · rw [if_neg (by rw [hd]; decide), hpcur st.crtc.id]
      dsimp only
      rw [if_neg (by decide)]
      by_cases hb : (st.crtc.cursor_bo != none) = true
      · have hcur : commit_pcur st = true := by
          unfold commit_pcur
          rw [hd, hb]
          rfl
        rw [if_pos hb, ih]
        dsimp only
        rw [List.map_cons, List.filter_cons, if_pos hcur, List.map_cons,
          show commit_fcur st = { st with cursor_pinned := true } from by
            unfold commit_fcur; rw [if_pos hcur]]
        rfl
      · have hcur : commit_pcur st = false := by
          unfold commit_pcur
          rw [hd]
          revert hb
          cases st.crtc.cursor_bo <;> simp
        rw [if_neg hb, ih]
        dsimp only
        rw [List.map_cons, List.filter_cons, if_neg (by rw [hcur]; decide),
          show commit_fcur st = st from by
            unfold commit_fcur; rw [hcur]; rw [if_neg (by decide)]]
        rfl
    · have hd' : st.cursor_dirty = false := by
        revert hd
        cases st.cursor_dirty <;> simp
      have hcur : commit_pcur st = false := by
        unfold commit_pcur
        rw [hd']
        rfl
      rw [if_pos (by rw [hd']; decide), ih]
      dsimp only
      rw [List.map_cons, List.filter_cons, if_neg (by rw [hcur]; decide),
        show commit_fcur st = st from by
          unfold commit_fcur; rw [hcur]; rw [if_neg (by decide)]]

theorem pin_fbs_success (ext : CommitExt) (s : IntelAtomicState)
    (hpc : ∀ i, ext.pin_crtc_fb i = 0) (hpp : ∀ i, ext.pin_plane_fb i = 0) :
    pin_fbs ext s =
      ({ s with crtcs := s.crtcs.map commit_fc, planes := s.planes.map commit_fp },
       (s.crtcs.filter commit_pc).map (fun st => CommitEff.pinCrtcFb st.crtc.id) ++
        (s.planes.filter commit_pp).map (fun p => CommitEff.pinPlaneFb p.plane.id),
       0) := by
  unfold pin_fbs
  rw [pin_crtc_fbs_loop_success ext hpc s.crtcs]
  dsimp only
  rw [if_neg (by decide)]
  rw [pin_plane_fbs_loop_success ext hpp s.planes]
  dsimp only
  rw [if_neg (by decide)]

theorem pin_cursors_success (ext : CommitExt) (s : IntelAtomicState)
    (hpcur : ∀ i, ext.pin_cursor i = 0) :
    pin_cursors ext s =
      ({ s with crtcs := s.crtcs.map commit_fcur },
       (s.crtcs.filter commit_pcur).map (fun st => CommitEff.pinCursor st.crtc.id),
       0) := by
  unfold pin_cursors
  rw [pin_cursors_loop_success ext hpcur s.crtcs]
  dsimp only
  rw [if_neg (by decide)]

theorem intel_atomic_commit_apply_fail_eval (ext : CommitExt)
    (s : IntelAtomicState)
    (hd : s.dirty = true) (hnb : s.flags.nonblock = false)
    (hpc : ∀ i, ext.pin_crtc_fb i = 0) (hpp : ∀ i, ext.pin_plane_fb i = 0)
    (hpcur : ∀ i, ext.pin_cursor i = 0)
    (happly : (ext.apply_config != 0) = true) :
    intel_atomic_commit ext s =
      ({ alloc_flip_data s with
          crtcs := ((((alloc_flip_data s).crtcs.map commit_fc).map
            commit_fcur).map clear_cursor_pinned).map clear_crtc_pinned
          planes := ((alloc_flip_data s).planes.map commit_fp).map
            clear_plane_pinned
          restore_hw := true },
       ((alloc_flip_data s).crtcs.filter commit_pc).map
          (fun st => CommitEff.pinCrtcFb st.crtc.id) ++
        ((alloc_flip_data s).planes.filter commit_pp).map
          (fun p => CommitEff.pinPlaneFb p.plane.id) ++
        (((alloc_flip_data s).crtcs.map commit_fc).filter commit_pcur).map
          (fun st => CommitEff.pinCursor st.crtc.id) ++
        [CommitEff.applyConfig] ++
        ((((alloc_flip_data s).crtcs.map commit_fc).map commit_fcur).filter
          (fun st => st.cursor_pinned)).map
          (fun st => CommitEff.unpinCursor st.crtc.id) ++
        (((((alloc_flip_data s).planes.map commit_fp).reverse.filter
            (fun p => p.pinned)).map
            (fun p => CommitEff.unpinPlaneFb p.plane.id)) ++
         (((((alloc_flip_data s).crtcs.map commit_fc).map commit_fcur).map
            clear_cursor_pinned).reverse.filter (fun st => st.pinned)).map
            (fun st => CommitEff.unpinCrtcFb st.crtc.id)),
       ext.apply_config) := by
  unfold intel_atomic_commit
  dsimp only
  rw [if_neg (by simp [alloc_flip_data, hd])]
  rw [pin_fbs_success ext (alloc_flip_data s) hpc hpp]
  dsimp only
  rw [if_neg (by decide)]
  rw [pin_cursors_success ext _ hpcur]
  dsimp only
  rw [if_neg (by decide)]
  rw [if_neg (by simp [alloc_flip_data, hnb])]
  rw [if_pos happly]
  dsimp only [unpin_cursors, unpin_fbs]
  rfl

theorem intel_atomic_commit_apply_ok_eval (ext : CommitExt)
    (s : IntelAtomicState)
    (hd : s.dirty = true) (hnb : s.flags.nonblock = false)
    (hpc : ∀ i, ext.pin_crtc_fb i = 0) (hpp : ∀ i, ext.pin_plane_fb i = 0)
    (hpcur : ∀ i, ext.pin_cursor i = 0)
    (happly0 : ext.apply_config = 0) :
    intel_atomic_commit ext s =
      ((queue_remaining_events
          { alloc_flip_data s with
            crtcs := ((alloc_flip_data s).crtcs.map commit_fc).map commit_fcur
            planes := (alloc_flip_data s).planes.map commit_fp
            dirty := false
            restore_state := false }).1,
       ((alloc_flip_data s).crtcs.filter commit_pc).map
          (fun st => CommitEff.pinCrtcFb st.crtc.id) ++
        ((alloc_flip_data s).planes.filter commit_pp).map
          (fun p => CommitEff.pinPlaneFb p.plane.id) ++
        (((alloc_flip_data s).crtcs.map commit_fc).filter commit_pcur).map
          (fun st => CommitEff.pinCursor st.crtc.id) ++
        [CommitEff.applyConfig] ++
        unpin_old_cursors_trace
          { alloc_flip_data s with
            crtcs := ((alloc_flip_data s).crtcs.map commit_fc).map commit_fcur
            planes := (alloc_flip_data s).planes.map commit_fp
            dirty := false
            restore_state := false } ++
        unpin_old_fbs_trace
          { alloc_flip_data s with
            crtcs := ((alloc_flip_data s).crtcs.map commit_fc).map commit_fcur
            planes := (alloc_flip_data s).planes.map commit_fp
            dirty := false
            restore_state := false } ++
        (queue_remaining_events
          { alloc_flip_data s with
            crtcs := ((alloc_flip_data s).crtcs.map commit_fc).map commit_fcur
            planes := (alloc_flip_data s).planes.map commit_fp
            dirty := false
            restore_state := false }).2 ++
        [CommitEff.updateBookkeeping],
       0) := by
  unfold intel_atomic_commit
  dsimp only
  rw [if_neg (by simp [alloc_flip_data, hd])]
  rw [pin_fbs_success ext (alloc_flip_data s) hpc hpp]
  dsimp only
  rw [if_neg (by decide)]
  rw [pin_cursors_success ext _ hpcur]
  dsimp only
  rw [if_neg (by decide)]
  rw [if_neg (by simp [alloc_flip_data, hnb])]
  rw [happly0]
  rw [if_neg (by decide)]

/-- **C3**: in a blocking commit whose hardware programming
(`apply_config`) fails after the pin phase succeeded, the commit
unwinds: the original error is returned unchanged; `restore_hw` is
flagged so that `intel_atomic_end` restores the saved objects
object-for-object and reprograms the hardware from them; the effect
trace pins the new crtc fbs, plane fbs and cursors and then unpins
exactly those again (cursors first, then plane fbs in reverse order,
then crtc fbs in reverse order), and no old-state buffer is unpinned
on this path; had `apply_config` succeeded instead, the commit would
return 0, unpin none of the newly pinned buffers, and release the old
fb of every fb-dirty pipe. -/
theorem intel_atomic_commit_apply_failure (ext : CommitExt)
    (s : IntelAtomicState)
    (hd : s.dirty = true) (hnb : s.flags.nonblock = false)
    (hrs : s.restore_state = true)
    (hpc : ∀ i, ext.pin_crtc_fb i = 0) (hpp : ∀ i, ext.pin_plane_fb i = 0)
    (hpcur : ∀ i, ext.pin_cursor i = 0)
    (happly : (ext.apply_config != 0) = true)
    (hfrc : ∀ st ∈ s.crtcs, st.pinned = false ∧ st.cursor_pinned = false)
    (hfrp : ∀ p ∈ s.planes, p.pinned = false) :
    (intel_atomic_commit ext s).2.2 = ext.apply_config ∧
    (intel_atomic_commit ext s).1.restore_hw = true ∧
    intel_atomic_end (intel_atomic_commit ext s).1 =
      [CommitEff.restoreObjects, CommitEff.applyConfig] ∧
    (intel_atomic_commit ext s).2.1 =
      (s.crtcs.filter commit_pc).map
        (fun st => CommitEff.pinCrtcFb st.crtc.id) ++
      (s.planes.filter commit_pp).map
        (fun p => CommitEff.pinPlaneFb p.plane.id) ++
      (s.crtcs.filter commit_pcur).map
        (fun st => CommitEff.pinCursor st.crtc.id) ++
      [CommitEff.applyConfig] ++
      (s.crtcs.filter commit_pcur).map
        (fun st => CommitEff.unpinCursor st.crtc.id) ++
      ((s.planes.filter commit_pp).reverse.map
        (fun p => CommitEff.unpinPlaneFb p.plane.id) ++
       (s.crtcs.filter commit_pc).reverse.map
        (fun st => CommitEff.unpinCrtcFb st.crtc.id)) ∧
    (∀ i : Nat,
      CommitEff.unpinOldCrtcFb i ∉ (intel_atomic_commit ext s).2.1 ∧
      CommitEff.unpinOldPlaneFb i ∉ (intel_atomic_commit ext s).2.1 ∧
      CommitEff.unpinOldCursor i ∉ (intel_atomic_commit ext s).2.1) ∧
    (intel_atomic_commit { ext with apply_config := 0 } s).2.2 = 0 ∧
    (∀ i : Nat,
      CommitEff.unpinCrtcFb i ∉
        (intel_atomic_commit { ext with apply_config := 0 } s).2.1 ∧
      CommitEff.unpinPlaneFb i ∉
        (intel_atomic_commit { ext with apply_config := 0 } s).2.1 ∧
      CommitEff.unpinCursor i ∉
        (intel_atomic_commit { ext with apply_config := 0 } s).2.1) ∧
    (∀ st ∈ s.crtcs, (st.fb_dirty && st.old.fb != none) = true →
      CommitEff.unpinOldCrtcFb st.crtc.id ∈
        (intel_atomic_commit { ext with apply_config := 0 } s).2.1) := by
  have heval := intel_atomic_commit_apply_fail_eval ext s hd hnb hpc hpp hpcur happly
  have heval0 := intel_atomic_commit_apply_ok_eval { ext with apply_config := 0 }
    s hd hnb hpc hpp hpcur rfl
  have hac : (alloc_flip_data s).crtcs =
      s.crtcs.map (alloc_crtc_flip_data s.flags.event) := rfl
  have hap : (alloc_flip_data s).planes =
      s.planes.map (alloc_plane_flip_data s.flags.event) := rfl
  have e1 : ((alloc_flip_data s).crtcs.filter commit_pc).map
      (fun st => CommitEff.pinCrtcFb st.crtc.id) =
      (s.crtcs.filter commit_pc).map
      (fun st => CommitEff.pinCrtcFb st.crtc.id) := by
    rw [hac]
    exact filter_map_transport _ _ _ _ _ s.crtcs
      (fun a _ => by simp [commit_pc, alloc_crtc_flip_data_eq])
      (fun a _ => by simp [alloc_crtc_flip_data_eq])
  have e2 : ((alloc_flip_data s).planes.filter commit_pp).map
      (fun p => CommitEff.pinPlaneFb p.plane.id) =
      (s.planes.filter commit_pp).map
      (fun p => CommitEff.pinPlaneFb p.plane.id) := by
    rw [hap]
    exact filter_map_transport _ _ _ _ _ s.planes
      (fun a _ => by simp [commit_pp, alloc_plane_flip_data_eq])
      (fun a _ => by simp [alloc_plane_flip_data_eq])
  have e3 : (((alloc_flip_data s).crtcs.map commit_fc).filter commit_pcur).map
      (fun st => CommitEff.pinCursor st.crtc.id) =
      (s.crtcs.filter commit_pcur).map
      (fun st => CommitEff.pinCursor st.crtc.id) := by
    rw [hac, List.map_map]
    exact filter_map_transport _ _ _ _ _ s.crtcs
      (fun a _ => by
        simp [Function.comp, commit_pcur, commit_fc_eq, alloc_crtc_flip_data_eq])
      (fun a _ => by
        simp [Function.comp, commit_fc_eq, alloc_crtc_flip_data_eq])
  have e5 : ((((alloc_flip_data s).crtcs.map commit_fc).map commit_fcur).filter
      (fun st => st.cursor_pinned)).map
      (fun st => CommitEff.unpinCursor st.crtc.id) =
      (s.crtcs.filter commit_pcur).map
      (fun st => CommitEff.unpinCursor st.crtc.id) := by
    rw [hac, List.map_map, List.map_map]
    exact filter_map_transport _ _ _ _ _ s.crtcs
      (fun a ha => by
        have h2 := (hfrc a ha).2
        simp [Function.comp, commit_fcur_eq, commit_fc_eq,
          alloc_crtc_flip_data_eq, commit_pcur, h2])
      (fun a _ => by
        simp [Function.comp, commit_fcur_eq, commit_fc_eq,
          alloc_crtc_flip_data_eq])
  have e6 : ((((alloc_flip_data s).planes.map commit_fp).reverse.filter
      (fun p => p.pinned)).map
      (fun p => CommitEff.unpinPlaneFb p.plane.id)) =
      (s.planes.filter commit_pp).reverse.map
      (fun p => CommitEff.unpinPlaneFb p.plane.id) := by
    rw [hap, List.map_map, ← List.map_reverse, ← List.filter_reverse]
    exact filter_map_transport _ _ _ _ _ s.planes.reverse
      (fun a ha => by
        have h2 := hfrp a (List.mem_reverse.mp ha)
        simp [Function.comp, commit_fp_eq, alloc_plane_flip_data_eq,
          commit_pp, h2])
      (fun a _ => by
        simp [Function.comp, commit_fp_eq, alloc_plane_flip_data_eq])
  have e7 : (((((alloc_flip_data s).crtcs.map commit_fc).map commit_fcur).map
      clear_cursor_pinned).reverse.filter (fun st => st.pinned)).map
      (fun st => CommitEff.unpinCrtcFb st.crtc.id) =
      (s.crtcs.filter commit_pc).reverse.map
      (fun st => CommitEff.unpinCrtcFb st.crtc.id) := by
    rw [hac, List.map_map, List.map_map, List.map_map, ← List.map_reverse,
      ← List.filter_reverse]
    exact filter_map_transport _ _ _ _ _ s.crtcs.reverse
      (fun a ha => by
        have h1 := (hfrc a (List.mem_reverse.mp ha)).1
        simp [Function.comp, clear_cursor_pinned, commit_fcur_eq,
          commit_fc_eq, alloc_crtc_flip_data_eq, commit_pc, h1])
      (fun a _ => by
        simp [Function.comp, clear_cursor_pinned, commit_fcur_eq,
          commit_fc_eq, alloc_crtc_flip_data_eq])
  have h4 : (intel_atomic_commit ext s).2.1 =
      (s.crtcs.filter commit_pc).map
        (fun st => CommitEff.pinCrtcFb st.crtc.id) ++
      (s.planes.filter commit_pp).map
        (fun p => CommitEff.pinPlaneFb p.plane.id) ++
      (s.crtcs.filter commit_pcur).map
        (fun st => CommitEff.pinCursor st.crtc.id) ++
      [CommitEff.applyConfig] ++
      (s.crtcs.filter commit_pcur).map
        (fun st => CommitEff.unpinCursor st.crtc.id) ++
      ((s.planes.filter commit_pp).reverse.map
        (fun p => CommitEff.unpinPlaneFb p.plane.id) ++
       (s.crtcs.filter commit_pc).reverse.map
        (fun st => CommitEff.unpinCrtcFb st.crtc.id)) := by
    rw [heval]
    dsimp only
    rw [e1, e2, e3, e5, e6, e7]
  refine ⟨?_, ?_, ?_, ?_, ?_, ?_, ?_, ?_⟩
  · rw [heval]
  · rw [heval]
  · rw [heval]
    simp [intel_atomic_end, alloc_flip_data, hrs]
  · exact h4
  · intro i
    refine ⟨?_, ?_, ?_⟩ <;> rw [h4] <;> simp
  · rw [heval0]
  · intro i
    refine ⟨?_, ?_, ?_⟩ <;> rw [heval0] <;>
      simp [queue_remaining_events, unpin_old_cursors_trace,
        unpin_old_fbs_trace]
  · intro st hst h
    rw [heval0]
    dsimp only
    apply List.mem_append_left
    apply List.mem_append_left
    apply List.mem_append_right
    unfold unpin_old_fbs_trace
    apply List.mem_append_left
    refine List.mem_map.mpr
      ⟨commit_fcur (commit_fc (alloc_crtc_flip_data s.flags.event st)),
       List.mem_filter.mpr ⟨?_, ?_⟩, ?_⟩
    · exact List.mem_map_of_mem _ (List.mem_map_of_mem _
        (by rw [hac]; exact List.mem_map_of_mem _ hst))
    · simpa [commit_fcur_eq, commit_fc_eq, alloc_crtc_flip_data_eq] using h
    · simp [commit_fcur_eq, commit_fc_eq, alloc_crtc_flip_data_eq]

/-- Witness for C3 at a concrete one-pipe (dirty fb and cursor),
one-plane transaction whose `apply_config` fails with -5. -/
theorem intel_atomic_commit_apply_failure_witness :
    (intel_atomic_commit wC3Ext wC3State).2.2 = -5 ∧
    (intel_atomic_commit wC3Ext wC3State).1.restore_hw = true ∧
    intel_atomic_end (intel_atomic_commit wC3Ext wC3State).1 =
      [CommitEff.restoreObjects, CommitEff.applyConfig] := by
  obtain ⟨h1, h2, h3, _⟩ := intel_atomic_commit_apply_failure wC3Ext wC3State
    (by decide) (by decide) (by decide) (fun i => rfl) (fun i => rfl)
    (fun i => rfl) (by decide) (by decide) (by decide)
  exact ⟨h1, h2, h3⟩

end I915
